import Mathlib

/-!
A shallow embedding of the reconciliation engine in
`internal/controllers/runner_controller.go` of the
github-actions-runner-controller repository, together with theorems that
settle the frozen claims about its specification.

Modelling conventions:
* Machine integers are `Nat`/`Int`; 32-bit arithmetic is explicit `% 2^32`.
* `time.Duration` values are modelled in whole seconds (`time.Second = 1`,
  `time.Minute = 60`); instants are `Int` seconds since the Unix epoch.
* The resource store is a record of lists of objects; get/list/create/
  update/delete are total, except that `Update` calls may be made to fail
  by injecting an error string through the per-pass environment `Env`
  (modelling a store rejection such as an optimistic-concurrency
  conflict).  Go maps are modelled as association lists.
* External collaborators (the JWT signing libraries, the HTTP client, the
  docker reference parser, `time.Parse`) are modelled at their interface
  boundary; each such definition carries a comment saying so.
* A Go `panic` is a distinct outcome constructor, not an error value.
-/

/-! ## Go string helpers -/

def listStartsWith : List Char → List Char → Bool
  | [], _ => true
  | _ :: _, [] => false
  | p :: ps, c :: cs => p == c && listStartsWith ps cs

/-- Fuel-driven splitter over character lists (the fuel, initialized to
the input length, only guarantees structural termination and is never
exhausted for a non-empty separator). -/
def splitFuel (sep : List Char) : Nat → List Char → List Char → List (List Char)
  | _, [], acc => [acc.reverse]
  | 0, l, acc => [acc.reverse ++ l]
  | fuel + 1, c :: cs, acc =>
    if listStartsWith sep (c :: cs) then
      acc.reverse :: splitFuel sep fuel ((c :: cs).drop sep.length) []
    else
      splitFuel sep fuel cs (c :: acc)

/-- Models Go `strings.Split(s, sep)` for a non-empty separator. -/
def goSplit (s sep : String) : List String :=
  (splitFuel sep.data s.data.length s.data []).map String.mk

def joinSep (sep : String) : List String → String
  | [] => ""
  | [x] => x
  | x :: y :: rest => x ++ sep ++ joinSep sep (y :: rest)

/-- Models Go `strings.SplitN(s, sep, 2)`: at most two pieces, the second
piece being the unsplit remainder. -/
def goSplitN2 (s sep : String) : List String :=
  match goSplit s sep with
  | [] => [s]
  | [x] => [x]
  | x :: rest => [x, joinSep sep rest]

/-- Models Go `strings.Contains` for a non-empty `pat`: `pat` occurs in `s`
iff splitting on it yields at least two pieces. -/
def goContains (s pat : String) : Bool := decide (2 ≤ (goSplit s pat).length)

/-- Association-list lookup, modelling Go map indexing (`m[k]`). -/
def lookupStr (m : List (String × String)) (k : String) : Option String :=
  (m.find? (fun p => p.1 == k)).map (fun p => p.2)

/-- Association-list insertion, modelling Go map assignment (`m[k] = v`). -/
def mapSet (m : List (String × String)) (k v : String) : List (String × String) :=
  if m.any (fun p => p.1 == k) then
    m.map (fun p => if p.1 == k then (k, v) else p)
  else m ++ [(k, v)]

/-- Models a Go `for k, v := range ov { base[k] = v }` map-merge loop. -/
def mergeMap (base ov : List (String × String)) : List (String × String) :=
  ov.foldl (fun m p => mapSet m p.1 p.2) base

/-! ## SHA-256 (models crypto/sha256.Sum256), over `Nat` with explicit
wrap-around at `2^32` -/

def rotr32 (n x : Nat) : Nat := (x / 2 ^ n + x % 2 ^ n * 2 ^ (32 - n)) % 4294967296

def shr32 (n x : Nat) : Nat := x / 2 ^ n

def bigSigma0 (x : Nat) : Nat := rotr32 2 x ^^^ rotr32 13 x ^^^ rotr32 22 x

def bigSigma1 (x : Nat) : Nat := rotr32 6 x ^^^ rotr32 11 x ^^^ rotr32 25 x

def smallSigma0 (x : Nat) : Nat := rotr32 7 x ^^^ rotr32 18 x ^^^ shr32 3 x

def smallSigma1 (x : Nat) : Nat := rotr32 17 x ^^^ rotr32 19 x ^^^ shr32 10 x

def chFn (e f g : Nat) : Nat := (e &&& f) ^^^ ((e ^^^ 4294967295) &&& g)

def majFn (a b c : Nat) : Nat := (a &&& b) ^^^ (a &&& c) ^^^ (b &&& c)

structure Sha256State where
  a : Nat
  b : Nat
  c : Nat
  d : Nat
  e : Nat
  f : Nat
  g : Nat
  h : Nat
deriving DecidableEq, Repr

def sha256Init : Sha256State :=
  ⟨1779033703, 3144134277, 1013904242, 2773480762, 1359893119, 2600822924, 528734635, 1541459225⟩

def sha256K : List Nat :=
  [1116352408, 1899447441, 3049323471, 3921009573, 961987163, 1508970993, 2453635748, 2870763221,
   3624381080, 310598401, 607225278, 1426881987, 1925078388, 2162078206, 2614888103, 3248222580,
   3835390401, 4022224774, 264347078, 604807628, 770255983, 1249150122, 1555081692, 1996064986,
   2554220882, 2821834349, 2952996808, 3210313671, 3336571891, 3584528711, 113926993, 338241895,
   666307205, 773529912, 1294757372, 1396182291, 1695183700, 1986661051, 2177026350, 2456956037,
   2730485921, 2820302411, 3259730800, 3345764771, 3516065817, 3600352804, 4094571909, 275423344,
   430227734, 506948616, 659060556, 883997877, 958139571, 1322822218, 1537002063, 1747873779,
   1955562222, 2024104815, 2227730452, 2361852424, 2428436474, 2756734187, 3204031479, 3329325298]

def bytesToWords : List Nat → List Nat
  | b0 :: b1 :: b2 :: b3 :: rest => (b0 * 16777216 + b1 * 65536 + b2 * 256 + b3) :: bytesToWords rest
  | _ => []

def scheduleStep (w : List Nat) : List Nat :=
  let i := w.length
  let s0 := smallSigma0 (w.getD (i - 15) 0)
  let s1 := smallSigma1 (w.getD (i - 2) 0)
  w ++ [(w.getD (i - 16) 0 + s0 + w.getD (i - 7) 0 + s1) % 4294967296]

def buildSchedule (w16 : List Nat) : List Nat :=
  (List.range 48).foldl (fun w _ => scheduleStep w) w16

def roundStep (st : Sha256State) (wk : Nat × Nat) : Sha256State :=
  let t1 := (st.h + bigSigma1 st.e + chFn st.e st.f st.g + wk.2 + wk.1) % 4294967296
  let t2 := (bigSigma0 st.a + majFn st.a st.b st.c) % 4294967296
  ⟨(t1 + t2) % 4294967296, st.a, st.b, st.c, (st.d + t1) % 4294967296, st.e, st.f, st.g⟩

def compress (st : Sha256State) (block : List Nat) : Sha256State :=
  let w := buildSchedule (bytesToWords block)
  let r := (w.zip sha256K).foldl roundStep st
  ⟨(st.a + r.a) % 4294967296, (st.b + r.b) % 4294967296, (st.c + r.c) % 4294967296,
   (st.d + r.d) % 4294967296, (st.e + r.e) % 4294967296, (st.f + r.f) % 4294967296,
   (st.g + r.g) % 4294967296, (st.h + r.h) % 4294967296⟩

def lengthBytes (n : Nat) : List Nat :=
  [n / 2 ^ 56 % 256, n / 2 ^ 48 % 256, n / 2 ^ 40 % 256, n / 2 ^ 32 % 256,
   n / 2 ^ 24 % 256, n / 2 ^ 16 % 256, n / 2 ^ 8 % 256, n % 256]

def sha256Pad (msg : List Nat) : List Nat :=
  msg ++ 128 :: List.replicate ((119 - msg.length % 64) % 64) 0 ++ lengthBytes (msg.length * 8)

def chunks64Aux : Nat → List Nat → List (List Nat)
  | 0, _ => []
  | _, [] => []
  | fuel + 1, x :: xs => (x :: xs).take 64 :: chunks64Aux fuel ((x :: xs).drop 64)

def chunks64 (l : List Nat) : List (List Nat) := chunks64Aux l.length l

def sha256Final (msg : List Nat) : Sha256State :=
  (chunks64 (sha256Pad msg)).foldl compress sha256Init

def wordBytes (w : Nat) : List Nat := [w / 16777216 % 256, w / 65536 % 256, w / 256 % 256, w % 256]

def digestBytes (st : Sha256State) : List Nat :=
  wordBytes st.a ++ wordBytes st.b ++ wordBytes st.c ++ wordBytes st.d ++
  wordBytes st.e ++ wordBytes st.f ++ wordBytes st.g ++ wordBytes st.h

/-- Lowercase hex digit, as produced by Go `fmt.Sprintf("%x", ...)`. -/
def hexDigit (n : Nat) : Char := if n < 10 then Char.ofNat (48 + n) else Char.ofNat (87 + n)

def byteHexChars (b : Nat) : List Char := [hexDigit (b / 16 % 16), hexDigit (b % 16)]

def sha256hexChars (msg : List Nat) : List Char :=
  (digestBytes (sha256Final msg)).foldr (fun b acc => byteHexChars b ++ acc) []

/-- UTF-8 encoding of one character, modelling Go `[]byte(string)`. -/
def utf8Bytes (c : Char) : List Nat :=
  let n := c.toNat
  if n < 128 then [n]
  else if n < 2048 then [192 + n / 64, 128 + n % 64]
  else if n < 65536 then [224 + n / 4096, 128 + n / 64 % 64, 128 + n % 64]
  else [240 + n / 262144, 128 + n / 4096 % 64, 128 + n / 64 % 64, 128 + n % 64]

def strBytes (s : String) : List Nat := s.data.foldr (fun c acc => utf8Bytes c ++ acc) []

/-- `fmt.Sprintf("%x", sha256.Sum256([]byte(s)))[:7]`. -/
def sha256hex7 (s : String) : String := String.mk ((sha256hexChars (strBytes s)).take 7)

/-! ## Docker image reference parsing

Modelled from the interface of the external library
`github.com/docker/distribution/reference`: `ParseNormalizedNamed`
canonicalizes a reference (adding the `docker.io` registry and the
`library/` path for bare official-image names, splitting off a trailing
tag) and rejects malformed references (empty name, uppercase or other
illegal characters in the repository path); `TrimNamed` drops the tag.
Digest references are outside this model and are treated as malformed. -/

structure NamedRef where
  domain : String
  path : String
  tag : Option String
deriving DecidableEq, Repr

def validPathChar (c : Char) : Bool :=
  c.isLower || c.isDigit || c == '.' || c == '_' || c == '-'

def validPathComponent (s : String) : Bool :=
  !(s == "") && s.data.all validPathChar

def validTagChar (c : Char) : Bool :=
  c.isAlphanum || c == '.' || c == '_' || c == '-'

def validTag (s : String) : Bool :=
  !(s == "") && s.data.all validTagChar

def splitDomain (s : String) : String × String :=
  match goSplit s "/" with
  | [] => ("docker.io", "library/" ++ s)
  | [single] => ("docker.io", "library/" ++ single)
  | first :: rest =>
    if first.data.any (fun c => c == '.') || first.data.any (fun c => c == ':') ||
        first == "localhost" then
      (first, joinSep "/" rest)
    else ("docker.io", s)

def parseNormalizedNamed (s : String) : Option NamedRef :=
  let dr := splitDomain s
  let pt : String × Option String :=
    match goSplit dr.2 ":" with
    | [p] => (p, none)
    | [p, t] => (p, some t)
    | _ => ("", none)
  if (goSplit pt.1 "/").all validPathComponent &&
      (match pt.2 with | none => true | some t => validTag t) then
    some ⟨dr.1, pt.1, pt.2⟩
  else none

def trimNamed (n : NamedRef) : String := n.domain ++ "/" ++ n.path

/-! ## RFC3339 timestamps

Modelled from the interface of Go `time.Parse(time.RFC3339, s)`, restricted
to the UTC form `YYYY-MM-DDTHH:MM:SSZ` with a year of at least 1970, which
covers every instant this engine handles; any other string parses to
`none` (a parse error). The result is Unix-epoch seconds. -/

def isLeapYear (y : Nat) : Bool := y % 4 == 0 && (y % 100 != 0 || y % 400 == 0)

def daysInMonth (y m : Nat) : Nat :=
  if m == 2 then (if isLeapYear y then 29 else 28)
  else if m == 4 || m == 6 || m == 9 || m == 11 then 30
  else 31

def monthDaysBefore (y m : Nat) : Nat :=
  ((List.range (m - 1)).map (fun i => daysInMonth y (i + 1))).foldr (· + ·) 0

def leapsToYear (n : Nat) : Nat := n / 4 - n / 100 + n / 400

def daysSinceEpoch (y m d : Nat) : Nat :=
  (y - 1970) * 365 + (leapsToYear (y - 1) - 477) + monthDaysBefore y m + (d - 1)

def digitVal (c : Char) : Option Nat :=
  if c.isDigit then some (c.toNat - 48) else none

def twoDigits (cs : List Char) (i : Nat) : Option Nat := do
  let a ← digitVal (cs.getD i ' ')
  let b ← digitVal (cs.getD (i + 1) ' ')
  some (a * 10 + b)

def parseRFC3339 (s : String) : Option Int :=
  let cs := s.data
  if cs.length == 20 && cs.getD 4 ' ' == '-' && cs.getD 7 ' ' == '-' &&
      cs.getD 10 ' ' == 'T' && cs.getD 13 ' ' == ':' && cs.getD 16 ' ' == ':' &&
      cs.getD 19 ' ' == 'Z' then do
    let yhi ← twoDigits cs 0
    let ylo ← twoDigits cs 2
    let y := yhi * 100 + ylo
    let mo ← twoDigits cs 5
    let dy ← twoDigits cs 8
    let hh ← twoDigits cs 11
    let nn ← twoDigits cs 14
    let ss ← twoDigits cs 17
    if 1970 ≤ y && 1 ≤ mo && mo ≤ 12 && 1 ≤ dy && dy ≤ daysInMonth y mo &&
        hh ≤ 23 && nn ≤ 59 && ss ≤ 59 then
      some ((daysSinceEpoch y mo dy * 86400 + hh * 3600 + nn * 60 + ss : Nat) : Int)
    else none
  else none

/-! ## Data model

Shallow embeddings of the Kubernetes objects, keeping only the fields the
controller source reads or writes. Controller ownership
(`SetControllerReference` / the `.metadata.controller` field index for
owners of kind `Runner`) is modelled by the `owner` field holding the
owning Runner's name. -/

structure SecretKeySelector where
  name : String
  key : String
deriving DecidableEq, Repr

inductive EnvVarSource where
  | fieldRef (apiVersion fieldPath : String)
  | secretKeyRef (sel : Option SecretKeySelector)
deriving DecidableEq, Repr

structure EnvVar where
  name : String
  value : String := ""
  valueFrom : Option EnvVarSource := none
deriving DecidableEq, Repr

inductive EnvFromSource where
  | secretRef (name : String)
deriving DecidableEq, Repr

structure VolumeMount where
  name : String
  mountPath : String := ""
  subPath : String := ""
  readOnly : Bool := false
deriving DecidableEq, Repr

/-- `v1.ResourceRequirements`; each `ResourceList` map is an association
list from resource name to quantity literal, `none` modelling a nil map. -/
structure Resources where
  limits : Option (List (String × String)) := none
  requests : Option (List (String × String)) := none
deriving DecidableEq, Repr

/-- Models `resource.Quantity.IsZero` on the quantity literals this model
stores: absent or literally zero. -/
def quantityIsZero (q : String) : Bool := q == "0"

structure SecurityContext where
  privileged : Option Bool := none
  readOnlyRootFilesystem : Option Bool := none
  runAsUser : Option Int := none
  runAsNonRoot : Option Bool := none
  seccompProfileType : Option String := none
deriving DecidableEq, Repr

structure ContainerPort where
  containerPort : Int
  protocol : String
deriving DecidableEq, Repr

structure Container where
  name : String
  image : String
  imagePullPolicy : String
  args : List String := []
  envFrom : List EnvFromSource := []
  env : List EnvVar := []
  volumeMounts : List VolumeMount := []
  resources : Resources := {}
  securityContext : Option SecurityContext := none
  ports : List ContainerPort := []
  terminationMessagePath : String := "/dev/termination-log"
  terminationMessagePolicy : String := "File"
deriving DecidableEq, Repr

inductive VolumeSource where
  | configMapVol (localName : String) (defaultMode : Option Int)
  | otherVol (id : String)
deriving DecidableEq, Repr

structure Volume where
  name : String
  source : VolumeSource
deriving DecidableEq, Repr

structure WeightedPodAffinityTerm where
  weight : Int
  matchLabels : List (String × String)
  topologyKey : String
deriving DecidableEq, Repr

structure PodSecurityContext where
  seccompProfileType : Option String := none
deriving DecidableEq, Repr

structure PodSpec where
  affinityAntiPreferred : Option (List WeightedPodAffinityTerm) := none
  initContainers : List Container := []
  containers : List Container := []
  volumes : List Volume := []
  restartPolicy : String := ""
  terminationGracePeriodSeconds : Option Int := none
  dnsPolicy : String := ""
  securityContext : Option PodSecurityContext := none
  schedulerName : String := ""
deriving DecidableEq, Repr

structure ObjectMetaFragment where
  labels : List (String × String) := []
  annots : List (String × String) := []
deriving DecidableEq, Repr

structure PodTemplateSpec where
  metadata : ObjectMetaFragment := {}
  spec : PodSpec := {}
deriving DecidableEq, Repr

structure ContainerSpecOverrides where
  env : List EnvVar := []
  envFrom : List EnvFromSource := []
  volumeMounts : List VolumeMount := []
  resources : Resources := {}
deriving DecidableEq, Repr

/-- The fragment of the Runner's declared pod template the source reads:
its metadata labels/annotations and its extra volumes. -/
structure PodTemplateFragment where
  labels : List (String × String) := []
  annots : List (String × String) := []
  volumes : List Volume := []
deriving DecidableEq, Repr

structure RunnerSpec where
  repository : String
  image : String
  tokenSecretKeyRef : Option SecretKeySelector := none
  appSecretRef : Option String := none
  builderContainerSpec : ContainerSpecOverrides := {}
  runnerContainerSpec : ContainerSpecOverrides := {}
  template : PodTemplateFragment := {}
deriving DecidableEq, Repr

structure Runner where
  name : String
  ns : String
  spec : RunnerSpec
deriving DecidableEq, Repr

structure K8sSecret where
  name : String
  ns : String
  annots : List (String × String) := []
  data : List (String × List Nat) := []
  stringData : List (String × String) := []
  owner : Option String := none
deriving DecidableEq, Repr

structure ConfigMap where
  name : String
  ns : String
  data : List (String × String) := []
  binaryData : List (String × List Nat) := []
  owner : Option String := none
deriving DecidableEq, Repr

inductive IntOrString where
  | intVal (i : Int)
  | strVal (s : String)
deriving DecidableEq, Repr

structure Deployment where
  name : String
  ns : String
  owner : Option String := none
  selectorMatchLabels : List (String × String) := []
  replicas : Option Int := none
  strategyType : String := ""
  maxSurge : Option IntOrString := none
  maxUnavailable : Option IntOrString := none
  template : PodTemplateSpec := {}
deriving DecidableEq, Repr

structure Store where
  runners : List Runner := []
  secrets : List K8sSecret := []
  configMaps : List ConfigMap := []
  deployments : List Deployment := []
deriving DecidableEq, Repr

structure Request where
  name : String
  ns : String
deriving DecidableEq, Repr

/-- The controller-wide configuration: the fields of `RunnerReconciler`. -/
structure RunnerReconciler where
  pushRegistryHost : String
  pullRegistryHost : String
  enableRunnerMetrics : Bool
  exporterImage : String
  gitHubAppClientId : String
  gitHubAppInstallationId : String
  gitHubAppPrivateKey : String
  kanikoImage : String
  binaryVersion : String
  runnerVersion : String
  disableupdate : Bool
deriving DecidableEq, Repr

structure AccessToken where
  token : String
  expiresAt : String
deriving DecidableEq, Repr

structure HttpResponse where
  statusCode : Nat
  body : Except String AccessToken
deriving Repr

/-- The external world during one reconcile pass: the current time, the
outcome of JWT signing (the pem/x509/jwt libraries are external), the
outcome of the token-issuance HTTPS call, and injected failures for the
store's `Update` calls (`none` = the update succeeds). -/
structure Env where
  now : Int
  signedJwt : Except String String
  httpResponse : Except String HttpResponse
  updateSecretErr : Option String := none
  updateConfigMapErr : Option String := none
  updateDeploymentErr : Option String := none
deriving Repr

inductive GoResult (α : Type) where
  | ok (a : α)
  | err (msg : String)
  | goPanic (msg : String)
deriving DecidableEq, Repr

inductive PassResult where
  | ok (requeueAfter : Int)
  | err (msg : String)
  | panicked (msg : String)
deriving DecidableEq, Repr

inductive Op where
  | createSecretOp (name : String)
  | updateSecretOp (name : String)
  | createConfigMapOp (name : String)
  | updateConfigMapOp (name : String)
  | createDeploymentOp (name : String)
  | updateDeploymentOp (name : String)
  | deleteConfigMapOp (name : String)
  | deleteDeploymentOp (name : String)
  | eventOp (etype reason : String)
deriving DecidableEq, Repr

/-- The store calls and recorder events of one pass, in order. Create,
update and delete operations are recorded when the call is issued;
events only when the source reaches the corresponding `Eventf`. -/
abbrev Trace := List Op

def isCreateOp : Op → Bool
  | Op.createSecretOp _ => true
  | Op.createConfigMapOp _ => true
  | Op.createDeploymentOp _ => true
  | _ => false

def isUpdateOp : Op → Bool
  | Op.updateSecretOp _ => true
  | Op.updateConfigMapOp _ => true
  | Op.updateDeploymentOp _ => true
  | _ => false

def createCount (tr : Trace) : Nat := (tr.filter isCreateOp).length

def updateCount (tr : Trace) : Nat := (tr.filter isUpdateOp).length

def isSecretUpdateOp : Op → Bool
  | Op.updateSecretOp _ => true
  | _ => false

def hasSecretUpdate (tr : Trace) : Bool := tr.any isSecretUpdateOp

def isAbnormalEvent : Op → Bool
  | Op.eventOp t _ => t != "Normal"
  | _ => false

/-- True when the trace records any event whose type is not `Normal`
(what a recorded failure event would be). -/
def hasAbnormalEvent (tr : Trace) : Bool := tr.any isAbnormalEvent

/-! ## Constants -/

def ownerKey : String := ".metadata.controller"

def optimisticLockErrorMsg : String :=
  "the object has been modified; please apply your changes to the latest version and try again"

/-- The `github-actions-runner.kaidotio.github.io/expiresAt` annotation
key (source constant `expiresAtAnnotation`). -/
def expiresAtKey : String := "github-actions-runner.kaidotio.github.io/expiresAt"

/-! ## Store operations -/

def secKeyIs (ns name : String) : K8sSecret → Bool :=
  fun s => s.ns == ns && s.name == name

def cmKeyIs (ns name : String) : ConfigMap → Bool :=
  fun c => c.ns == ns && c.name == name

def depKeyIs (ns name : String) : Deployment → Bool :=
  fun d => d.ns == ns && d.name == name

def getRunner (store : Store) (ns name : String) : Option Runner :=
  store.runners.find? (fun x => x.ns == ns && x.name == name)

def getSecret (store : Store) (ns name : String) : Option K8sSecret :=
  store.secrets.find? (secKeyIs ns name)

def getConfigMap (store : Store) (ns name : String) : Option ConfigMap :=
  store.configMaps.find? (cmKeyIs ns name)

def getDeployment (store : Store) (ns name : String) : Option Deployment :=
  store.deployments.find? (depKeyIs ns name)

def replaceIf {α : Type} (p : α → Bool) (v : α) (l : List α) : List α :=
  l.map (fun x => if p x then v else x)

def putSecret (store : Store) (s : K8sSecret) : Store :=
  { store with secrets := store.secrets ++ [s] }

def storeUpdateSecret (store : Store) (s : K8sSecret) : Store :=
  { store with secrets := replaceIf (secKeyIs s.ns s.name) s store.secrets }

def putConfigMap (store : Store) (c : ConfigMap) : Store :=
  { store with configMaps := store.configMaps ++ [c] }

def storeUpdateConfigMap (store : Store) (c : ConfigMap) : Store :=
  { store with configMaps := replaceIf (cmKeyIs c.ns c.name) c store.configMaps }

def deleteConfigMapStore (store : Store) (ns name : String) : Store :=
  { store with configMaps := store.configMaps.filter (fun c => !(cmKeyIs ns name c)) }

def putDeployment (store : Store) (d : Deployment) : Store :=
  { store with deployments := store.deployments ++ [d] }

def storeUpdateDeployment (store : Store) (d : Deployment) : Store :=
  { store with deployments := replaceIf (depKeyIs d.ns d.name) d store.deployments }

def deleteDeploymentStore (store : Store) (ns name : String) : Store :=
  { store with deployments := store.deployments.filter (fun d => !(depKeyIs ns name d)) }

/-! ## Desired-state builders -/

/-- `buildRepositoryName`: first 7 hex chars of the SHA-256 of the
normalized (or, on parse failure, raw) image reference concatenated with
the binary and runner versions. -/
def buildRepositoryName (r : RunnerReconciler) (runner : Runner) : String :=
  match parseNormalizedNamed runner.spec.image with
  | none => sha256hex7 (runner.spec.image ++ r.binaryVersion ++ r.runnerVersion)
  | some named => sha256hex7 (trimNamed named ++ r.binaryVersion ++ r.runnerVersion)

/-- `buildBuilderContainer`. The Go function mutates its input: it
default-fills the builder container's memory limit on
`runner.Spec.BuilderContainerSpec.Resources.Limits`; the mutated Runner is
returned as the first component. -/
def buildBuilderContainer (r : RunnerReconciler) (runner0 : Runner) : Runner × Container :=
  let limits0 := (runner0.spec.builderContainerSpec.resources.limits).getD []
  let limits1 :=
    if (match lookupStr limits0 "memory" with
        | none => true
        | some q => quantityIsZero q) then
      mapSet limits0 "memory" "4Gi"
    else limits0
  let runner := { runner0 with spec := { runner0.spec with
    builderContainerSpec := { runner0.spec.builderContainerSpec with
      resources := { runner0.spec.builderContainerSpec.resources with limits := some limits1 } } } }
  (runner,
   { name := "kaniko"
     image := r.kanikoImage
     imagePullPolicy := "IfNotPresent"
     args := ["--dockerfile=Dockerfile", "--context=dir:///workspace", "--cache=true",
              "--compressed-caching=false",
              "--destination=" ++ r.pushRegistryHost ++ "/" ++ buildRepositoryName r runner]
     envFrom := runner.spec.builderContainerSpec.envFrom
     env := runner.spec.builderContainerSpec.env
     volumeMounts :=
       { name := "workspace", mountPath := "/workspace/Dockerfile",
         subPath := "Dockerfile", readOnly := true } ::
       runner.spec.builderContainerSpec.volumeMounts
     resources := runner.spec.builderContainerSpec.resources })

/-- `buildRunnerContainer` (pure: reads the Runner, returns a container). -/
def buildRunnerContainer (r : RunnerReconciler) (runner : Runner) : Container :=
  let args0 := ["--without-install", "--repository=$(REPOSITORY)", "--hostname=$(HOSTNAME)"]
  let env0 := runner.spec.runnerContainerSpec.env ++
    [{ name := "REPOSITORY", value := runner.spec.repository },
     { name := "HOSTNAME", valueFrom := some (EnvVarSource.fieldRef "v1" "metadata.name") }]
  let args1 :=
    match runner.spec.tokenSecretKeyRef with
    | some _ => args0 ++ ["--token=$(TOKEN)"]
    | none => args0
  let env1 :=
    match runner.spec.tokenSecretKeyRef with
    | some _ => env0 ++
        [{ name := "TOKEN",
           valueFrom := some (EnvVarSource.secretKeyRef runner.spec.tokenSecretKeyRef) }]
    | none => env0
  let args2 :=
    match runner.spec.appSecretRef with
    | some _ => args1 ++ ["--github-app-id=$(github_app_id)",
        "--github-app-installation-id=$(github_app_installation_id)",
        "--github-app-private-key=$(github_app_private_key)"]
    | none => args1
  let envFrom1 :=
    match runner.spec.appSecretRef with
    | some nm => runner.spec.runnerContainerSpec.envFrom ++ [EnvFromSource.secretRef nm]
    | none => runner.spec.runnerContainerSpec.envFrom
  let args3 := if r.disableupdate then args2 ++ ["--disableupdate"] else args2
  { name := "runner"
    securityContext := some
      { privileged := some false
        readOnlyRootFilesystem := some false
        runAsUser := some 60000
        runAsNonRoot := some true
        seccompProfileType := some "RuntimeDefault" }
    image := r.pullRegistryHost ++ "/" ++ buildRepositoryName r runner
    imagePullPolicy := "Always"
    args := args3
    envFrom := envFrom1
    env := env1
    resources := runner.spec.runnerContainerSpec.resources
    volumeMounts := runner.spec.runnerContainerSpec.volumeMounts }

/-- `buildExporterContainer` (pure). -/
def buildExporterContainer (r : RunnerReconciler) (runner : Runner) : Container :=
  { name := "exporter"
    image := r.exporterImage
    imagePullPolicy := "Always"
    args := ["server", "--api-address=0.0.0.0:8000", "--monitor-address=0.0.0.0:9090",
             "--repository=$(REPOSITORY)", "--token=$(TOKEN)"]
    env := [{ name := "REPOSITORY", value := runner.spec.repository },
            { name := "TOKEN",
              valueFrom := some (EnvVarSource.secretKeyRef runner.spec.tokenSecretKeyRef) }]
    ports := [{ containerPort := 9090, protocol := "TCP" }] }

/-- `buildDeployment`. The Go function mutates its input Runner: it merges
the computed `app` label and `image` annotation into
`runner.Spec.Template.ObjectMeta` and (via `buildBuilderContainer`)
default-fills the builder memory limit; the mutated Runner is returned as
the first component. -/
def buildDeployment (r : RunnerReconciler) (runner0 : Runner) : Runner × Deployment :=
  let runnerC := buildRunnerContainer r runner0
  let containers :=
    if r.enableRunnerMetrics then [runnerC, buildExporterContainer r runner0] else [runnerC]
  let appLabel := runner0.name ++ "-runner"
  let labels := mergeMap [("app", appLabel)] runner0.spec.template.labels
  let runner1 := { runner0 with spec := { runner0.spec with
    template := { runner0.spec.template with labels := labels } } }
  let annots := mergeMap [("image", runner0.spec.image)] runner1.spec.template.annots
  let runner2 := { runner1 with spec := { runner1.spec with
    template := { runner1.spec.template with annots := annots } } }
  let bb := buildBuilderContainer r runner2
  (bb.1,
   { name := runner0.name ++ "-runner"
     ns := runner0.ns
     selectorMatchLabels := [("app", appLabel)]
     replicas := some 1
     strategyType := "RollingUpdate"
     maxSurge := some (IntOrString.strVal "25%")
     maxUnavailable := some (IntOrString.intVal 1)
     template :=
       { metadata := { labels := runner2.spec.template.labels,
                       annots := runner2.spec.template.annots }
         spec :=
           { affinityAntiPreferred := some
               [{ weight := 100, matchLabels := [("app", appLabel)],
                  topologyKey := "kubernetes.io/hostname" }]
             initContainers := [bb.2]
             containers := containers
             volumes :=
               { name := "workspace",
                 source := VolumeSource.configMapVol (runner0.name ++ "-workspace") (some 420) } ::
               runner0.spec.template.volumes
             restartPolicy := "Always"
             terminationGracePeriodSeconds := some 30
             dnsPolicy := "ClusterFirst"
             securityContext := some { seccompProfileType := some "RuntimeDefault" }
             schedulerName := "default-scheduler" } } })

/-- The generated Dockerfile text (the Go raw-string literal with its
three interpolations; it begins with a newline). -/
def workspaceDockerfile (image binVer runVer : String) : String :=
  "\nFROM " ++ image ++
  "\nUSER root\nENV DEBIAN_FRONTEND=noninteractive\nRUN (command -v apt && apt update && apt install -y ca-certificates iputils-ping tar sudo git) || \\\n      (command -v apt-get && apt-get update && apt-get install -y --no-install-recommends ca-certificates iputils-ping tar sudo git) || \\\n      (command -v dnf && dnf install -y ca-certificates iputils tar sudo git) || \\\n      (command -v yum && yum install -y ca-certificates iputils tar sudo git) || \\\n      (command -v zypper && zypper install -n ca-certificates iputils tar sudo git-core) || \\\n      (echo \"Unknown OS version\" && exit 1)\n\nADD https://github.com/kaidotdev/github-actions-runner-controller/releases/download/v" ++
  binVer ++ "/runner_" ++ binVer ++
  "_linux_amd64 /usr/local/bin/runner\nRUN chmod +x /usr/local/bin/runner\n\nRUN echo 'runner::60000:60000::/home/runner:/bin/sh' >> /etc/passwd\nRUN echo 'runner::60000:' >> /etc/group\nRUN mkdir -p /home/runner && chown -R runner:runner /home/runner\n\nRUN echo \"runner:!:0:0:99999:7:::\" >> /etc/shadow\nRUN echo \"runner ALL=(ALL) NOPASSWD: ALL\" | sudo EDITOR='tee -a' visudo\n\nWORKDIR /home/runner\n\nRUN /usr/local/bin/runner --only-install --runner-version " ++
  runVer ++ "\n\nUSER 60000\n\nENTRYPOINT [\"/usr/local/bin/runner\"]\n"

/-- `buildWorkspaceConfigMap` (pure). -/
def buildWorkspaceConfigMap (r : RunnerReconciler) (runner : Runner) : ConfigMap :=
  { name := runner.name ++ "-workspace"
    ns := runner.ns
    data := [("Dockerfile", workspaceDockerfile runner.spec.image r.binaryVersion r.runnerVersion)] }

/-- `createTokenSecret`. The JWT signing step (`signJwt`: pem decode,
PKCS1 parse, RS256 sign — all external libraries) and the HTTPS exchange
are modelled by their outcomes in `Env`; `json.Marshal` of the fixed
request body shape and `http.NewRequest` cannot fail and are elided.
Indexing `strings.SplitN(repository, "/", 2)[1]` panics when the
repository contains no slash. -/
def createTokenSecret (_r : RunnerReconciler) (env : Env) (runner : Runner) :
    GoResult K8sSecret :=
  match env.signedJwt with
  | Except.error e => GoResult.err ("failed to sign jwt: " ++ e)
  | Except.ok _jwtToken =>
    match (goSplitN2 runner.spec.repository "/").get? 1 with
    | none => GoResult.goPanic "runtime error: index out of range [1] with length 1"
    | some _repoName =>
      match env.httpResponse with
      | Except.error e => GoResult.err ("failed to do request: " ++ e)
      | Except.ok resp =>
        if resp.statusCode ≠ 201 then
          GoResult.err ("failed to get access token: " ++ toString resp.statusCode)
        else
          match resp.body with
          | Except.error e => GoResult.err ("failed to decode access token: " ++ e)
          | Except.ok accessToken =>
            GoResult.ok
              { name := runner.name
                ns := runner.ns
                annots := [(expiresAtKey, accessToken.expiresAt)]
                data := []
                stringData := [("GITHUB_TOKEN", accessToken.token)] }

/-! ## Garbage collection (`cleanupOwnedResources`) -/

def doomedCMPred (runner : Runner) : ConfigMap → Bool :=
  fun cm => cm.ns == runner.ns && cm.owner == some runner.name &&
    cm.name != runner.name ++ "-workspace"

def doomedDepPred (runner : Runner) : Deployment → Bool :=
  fun d => d.ns == runner.ns && d.owner == some runner.name &&
    d.name != runner.name ++ "-runner"

def gcTraceCM (l : List ConfigMap) : Trace :=
  l.foldr (fun cm acc =>
    Op.deleteConfigMapOp cm.name :: Op.eventOp "Normal" "SuccessfulDeleted" :: acc) []

def gcTraceDep (l : List Deployment) : Trace :=
  l.foldr (fun d acc =>
    Op.deleteDeploymentOp d.name :: Op.eventOp "Normal" "SuccessfulDeleted" :: acc) []

/-- Lists config maps, then deployments, attributed to the Runner via the
owner index in its namespace, and deletes every one whose name is not the
canonical name for its kind.  Secrets are not listed or deleted. -/
def cleanupOwnedResources (runner : Runner) (store : Store) : Store × Trace :=
  let doomedCMs := store.configMaps.filter (doomedCMPred runner)
  let store1 := doomedCMs.foldl (fun st cm => deleteConfigMapStore st cm.ns cm.name) store
  let doomedDeps := store1.deployments.filter (doomedDepPred runner)
  let store2 := doomedDeps.foldl (fun st d => deleteDeploymentStore st d.ns d.name) store1
  (store2, gcTraceCM doomedCMs ++ gcTraceDep doomedDeps)

/-! ## The reconcile pass -/

/-- The dynamic-issuance guard of the credential branch (source line 78). -/
def dynamicIssuance (r : RunnerReconciler) (runner : Runner) : Prop :=
  runner.spec.tokenSecretKeyRef = none ∧ r.gitHubAppClientId ≠ "" ∧
  r.gitHubAppInstallationId ≠ "" ∧ r.gitHubAppPrivateKey ≠ ""

instance (r : RunnerReconciler) (runner : Runner) : Decidable (dynamicIssuance r runner) := by
  unfold dynamicIssuance; infer_instance

/-- The in-memory write-back of the resolved credential reference
(source lines 133-138). -/
def withTokenRef (runner : Runner) (req : Request) : Runner :=
  { runner with spec := { runner.spec with
    tokenSecretKeyRef := some { name := req.name, key := "GITHUB_TOKEN" } } }

/-- An early return from the pass: the returned result together with the
store and trace at that point. -/
abbrev Halted := PassResult × Store × Trace

/-- The credential-secret branch of `Reconcile` (source lines 78-139).
Returns the (possibly token-ref-resolved) Runner, the store, the trace and
this branch's requeue-after contribution (0 = none). -/
def secretPhase (r : RunnerReconciler) (env : Env) (req : Request) (runner : Runner)
    (store : Store) (tr : Trace) : Except Halted (Runner × Store × Trace × Int) :=
  if dynamicIssuance r runner then
    match getSecret store req.ns req.name with
    | none =>
      match createTokenSecret r env runner with
      | GoResult.err e => Except.error (PassResult.err e, store, tr)
      | GoResult.goPanic e => Except.error (PassResult.panicked e, store, tr)
      | GoResult.ok s0 =>
        let s := { s0 with owner := some runner.name }
        let store := putSecret store s
        let tr := tr ++ [Op.createSecretOp s.name, Op.eventOp "Normal" "SuccessfulCreated"]
        match parseRFC3339 ((lookupStr s.annots expiresAtKey).getD "") with
        | none => Except.error (PassResult.err "time parse error", store, tr)
        | some expire =>
          Except.ok (withTokenRef runner req, store, tr, expire - env.now - 60)
    | some tokenSecret =>
      match createTokenSecret r env runner with
      | GoResult.err e => Except.error (PassResult.err e, store, tr)
      | GoResult.goPanic e => Except.error (PassResult.panicked e, store, tr)
      | GoResult.ok expected =>
        if tokenSecret.data ≠ expected.data ∨ tokenSecret.stringData ≠ expected.stringData then
          let updated := { tokenSecret with
            annots := expected.annots
            data := expected.data
            stringData := expected.stringData }
          let tr := tr ++ [Op.updateSecretOp updated.name]
          match env.updateSecretErr with
          | some e => Except.error (PassResult.err e, store, tr)
          | none =>
            let store := storeUpdateSecret store updated
            let tr := tr ++ [Op.eventOp "Normal" "SuccessfulUpdated"]
            match parseRFC3339 ((lookupStr updated.annots expiresAtKey).getD "") with
            | none => Except.error (PassResult.err "time parse error", store, tr)
            | some expire =>
              Except.ok (withTokenRef runner req, store, tr, expire - env.now - 60)
        else
          Except.ok (withTokenRef runner req, store, tr, 0)
  else
    Except.ok (runner, store, tr, 0)

/-- The build-context config-map branch of `Reconcile` (source lines
141-174).  Note: a failing update propagates the error — there is no
conflict handling in this branch. -/
def configMapPhase (r : RunnerReconciler) (env : Env) (req : Request) (runner : Runner)
    (store : Store) (tr : Trace) : Except Halted (Store × Trace) :=
  match getConfigMap store req.ns (req.name ++ "-workspace") with
  | none =>
    let cm := { buildWorkspaceConfigMap r runner with owner := some runner.name }
    let store := putConfigMap store cm
    let tr := tr ++ [Op.createConfigMapOp cm.name, Op.eventOp "Normal" "SuccessfulCreated"]
    Except.ok (store, tr)
  | some cm =>
    let expected := buildWorkspaceConfigMap r runner
    if cm.data ≠ expected.data ∨ cm.binaryData ≠ expected.binaryData then
      let updated := { cm with data := expected.data, binaryData := expected.binaryData }
      let tr := tr ++ [Op.updateConfigMapOp updated.name]
      match env.updateConfigMapErr with
      | some e => Except.error (PassResult.err e, store, tr)
      | none =>
        let store := storeUpdateConfigMap store updated
        let tr := tr ++ [Op.eventOp "Normal" "SuccessfulUpdated"]
        Except.ok (store, tr)
    else
      Except.ok (store, tr)

/-- The workload-deployment branch of `Reconcile` (source lines 176-210).
This is the only branch whose failing update is inspected for the
optimistic-lock message; on a conflict the whole pass returns success with
a fixed one-second requeue. -/
def deploymentPhase (r : RunnerReconciler) (env : Env) (req : Request) (runner : Runner)
    (store : Store) (tr : Trace) : Except Halted (Store × Trace) :=
  match getDeployment store req.ns (req.name ++ "-runner") with
  | none =>
    let d := { (buildDeployment r runner).2 with owner := some runner.name }
    let store := putDeployment store d
    let tr := tr ++ [Op.createDeploymentOp d.name, Op.eventOp "Normal" "SuccessfulCreated"]
    Except.ok (store, tr)
  | some deployment =>
    let expected := (buildDeployment r runner).2
    if deployment.template ≠ expected.template then
      let updated := { deployment with template := expected.template }
      let tr := tr ++ [Op.updateDeploymentOp updated.name]
      match env.updateDeploymentErr with
      | some e =>
        if goContains e optimisticLockErrorMsg then
          Except.error (PassResult.ok 1, store, tr)
        else
          Except.error (PassResult.err e, store, tr)
      | none =>
        let store := storeUpdateDeployment store updated
        let tr := tr ++ [Op.eventOp "Normal" "SuccessfulUpdated"]
        Except.ok (store, tr)
    else
      Except.ok (store, tr)

/-- The full reconcile pass (`Reconcile`).  Returns the pass result, the
store after the pass, and the trace of store calls and events. -/
def Reconcile (r : RunnerReconciler) (env : Env) (req : Request) (store0 : Store) :
    PassResult × Store × Trace :=
  match getRunner store0 req.ns req.name with
  | none => (PassResult.ok 0, store0, [])
  | some runner =>
    let cl := cleanupOwnedResources runner store0
    match secretPhase r env req runner cl.1 cl.2 with
    | Except.error h => h
    | Except.ok (runner2, store2, tr2, requeueAfter) =>
      match configMapPhase r env req runner2 store2 tr2 with
      | Except.error h => h
      | Except.ok (store3, tr3) =>
        match deploymentPhase r env req runner2 store3 tr3 with
        | Except.error h => h
        | Except.ok (store4, tr4) => (PassResult.ok requeueAfter, store4, tr4)

/-! ## General list lemmas -/

theorem find?_append_left_none {α : Type} {l : List α} {p : α → Bool}
    (h : l.find? p = none) (l₂ : List α) : (l ++ l₂).find? p = l₂.find? p := by
  rw [List.find?_append, h, Option.none_or]

theorem find?_replaceIf {α : Type} {l : List α} {p : α → Bool} {a : α} (v : α)
    (h : l.find? p = some a) (hv : p v = true) :
    (replaceIf p v l).find? p = some v := by
  induction l with
  | nil => simp [List.find?] at h
  | cons x xs ih =>
    by_cases hx : p x = true
    · simp [replaceIf, List.find?, hx, hv]
    · rw [List.find?_cons_of_neg _ (by simp [hx])] at h
      have hred : replaceIf p v (x :: xs) = x :: replaceIf p v xs := by
        simp [replaceIf, hx]
      rw [hred, List.find?_cons_of_neg _ (by simp [hx])]
      exact ih h

theorem find?_filter_subsumed {α : Type} {p q : α → Bool}
    (l : List α) (h : ∀ x, p x = true → q x = true) :
    (l.filter q).find? p = l.find? p := by
  induction l with
  | nil => rfl
  | cons x xs ih =>
    by_cases hq : q x = true
    · by_cases hp : p x = true
      · simp [List.filter_cons, hq, List.find?_cons_of_pos, hp]
      · simp only [List.filter_cons, hq, if_true]
        rw [List.find?_cons_of_neg _ (by simp [hp]), List.find?_cons_of_neg _ (by simp [hp])]
        exact ih
    · have hp : ¬ p x = true := fun hpx => hq (h x hpx)
      simp only [List.filter_cons, hq, if_false]
      rw [List.find?_cons_of_neg _ (by simp [hp])]
      exact ih

theorem filter_replaceIf_nil {α : Type} {l : List α} {p q : α → Bool} {v : α}
    (h : l.filter p = []) (hv : p v = false) :
    (replaceIf q v l).filter p = [] := by
  rw [List.filter_eq_nil] at h ⊢
  intro a ha
  rcases List.mem_map.1 ha with ⟨b, hb, hba⟩
  by_cases hqb : q b = true
  · simp only [hqb, if_true] at hba
    subst hba; simp [hv]
  · simp only [if_neg hqb] at hba
    subst hba; exact h b hb

theorem filter_append_single_nil {α : Type} {l : List α} {p : α → Bool} {v : α}
    (h : l.filter p = []) (hv : p v = false) :
    ((l ++ [v]).filter p) = [] := by
  rw [List.filter_append, h, List.nil_append]
  simp [List.filter_cons, hv]

theorem count_ops_append (p : Op → Bool) (a b : Trace) :
    ((a ++ b).filter p).length = (a.filter p).length + (b.filter p).length := by
  rw [List.filter_append, List.length_append]

/-! ## Key lemmas for store lookups -/

theorem getRunner_keys {store : Store} {ns name : String} {runner : Runner}
    (h : getRunner store ns name = some runner) : runner.ns = ns ∧ runner.name = name := by
  have := List.find?_some h
  constructor
  · exact beq_iff_eq.1 (Bool.and_elim_left this)
  · exact beq_iff_eq.1 (Bool.and_elim_right this)

theorem getSecret_keys {store : Store} {ns name : String} {s : K8sSecret}
    (h : getSecret store ns name = some s) : s.ns = ns ∧ s.name = name := by
  have := List.find?_some h
  unfold secKeyIs at this
  constructor
  · exact beq_iff_eq.1 (Bool.and_elim_left this)
  · exact beq_iff_eq.1 (Bool.and_elim_right this)

theorem getConfigMap_keys {store : Store} {ns name : String} {c : ConfigMap}
    (h : getConfigMap store ns name = some c) : c.ns = ns ∧ c.name = name := by
  have := List.find?_some h
  unfold cmKeyIs at this
  constructor
  · exact beq_iff_eq.1 (Bool.and_elim_left this)
  · exact beq_iff_eq.1 (Bool.and_elim_right this)

theorem getDeployment_keys {store : Store} {ns name : String} {d : Deployment}
    (h : getDeployment store ns name = some d) : d.ns = ns ∧ d.name = name := by
  have := List.find?_some h
  unfold depKeyIs at this
  constructor
  · exact beq_iff_eq.1 (Bool.and_elim_left this)
  · exact beq_iff_eq.1 (Bool.and_elim_right this)

/-! ## Garbage-collection lemmas -/

theorem foldl_deleteCM (ds : List ConfigMap) (st : Store) :
    ds.foldl (fun s cm => deleteConfigMapStore s cm.ns cm.name) st =
    { st with configMaps :=
        st.configMaps.filter (fun y => ds.all (fun d => !(cmKeyIs d.ns d.name y))) } := by
  induction ds generalizing st with
  | nil => simp
  | cons d ds ih =>
    rw [List.foldl_cons, ih]
    simp only [deleteConfigMapStore]
    congr 1
    rw [List.filter_filter]
    apply List.filter_congr
    intro a _
    simp [List.all_cons, Bool.and_comm]

theorem foldl_deleteDep (ds : List Deployment) (st : Store) :
    ds.foldl (fun s d => deleteDeploymentStore s d.ns d.name) st =
    { st with deployments :=
        st.deployments.filter (fun y => ds.all (fun d => !(depKeyIs d.ns d.name y))) } := by
  induction ds generalizing st with
  | nil => simp
  | cons d ds ih =>
    rw [List.foldl_cons, ih]
    simp only [deleteDeploymentStore]
    congr 1
    rw [List.filter_filter]
    apply List.filter_congr
    intro a _
    simp [List.all_cons, Bool.and_comm]

theorem cleanup_store_eq (runner : Runner) (store : Store) :
    (cleanupOwnedResources runner store).1 =
    { store with
      configMaps := store.configMaps.filter (fun y =>
        (store.configMaps.filter (doomedCMPred runner)).all (fun d => !(cmKeyIs d.ns d.name y)))
      deployments := store.deployments.filter (fun y =>
        (store.deployments.filter (doomedDepPred runner)).all (fun d => !(depKeyIs d.ns d.name y))) } := by
  unfold cleanupOwnedResources
  simp only [foldl_deleteCM, foldl_deleteDep]

theorem cleanup_secrets (runner : Runner) (store : Store) :
    (cleanupOwnedResources runner store).1.secrets = store.secrets := by
  rw [cleanup_store_eq]

theorem cleanup_runners (runner : Runner) (store : Store) :
    (cleanupOwnedResources runner store).1.runners = store.runners := by
  rw [cleanup_store_eq]

theorem cleanup_cm_clean (runner : Runner) (store : Store) :
    (cleanupOwnedResources runner store).1.configMaps.filter (doomedCMPred runner) = [] := by
  rw [cleanup_store_eq]
  simp only [List.filter_filter, List.filter_eq_nil]
  intro a ha hpred
  rw [Bool.and_eq_true] at hpred
  have hmem : a ∈ store.configMaps.filter (doomedCMPred runner) :=
    List.mem_filter.2 ⟨ha, hpred.1⟩
  have := (List.all_eq_true.1 hpred.2) a hmem
  simp [cmKeyIs] at this

theorem cleanup_dep_clean (runner : Runner) (store : Store) :
    (cleanupOwnedResources runner store).1.deployments.filter (doomedDepPred runner) = [] := by
  rw [cleanup_store_eq]
  simp only [List.filter_filter, List.filter_eq_nil]
  intro a ha hpred
  rw [Bool.and_eq_true] at hpred
  have hmem : a ∈ store.deployments.filter (doomedDepPred runner) :=
    List.mem_filter.2 ⟨ha, hpred.1⟩
  have := (List.all_eq_true.1 hpred.2) a hmem
  simp [depKeyIs] at this

theorem cleanup_noop {runner : Runner} {store : Store}
    (hcm : store.configMaps.filter (doomedCMPred runner) = [])
    (hdep : store.deployments.filter (doomedDepPred runner) = []) :
    cleanupOwnedResources runner store = (store, []) := by
  unfold cleanupOwnedResources
  rw [hcm]
  simp only [List.foldl_nil]
  rw [hdep]
  simp [gcTraceCM, gcTraceDep]

theorem gcTraceCM_ops (l : List ConfigMap) :
    ∀ op ∈ gcTraceCM l, isCreateOp op = false ∧ isUpdateOp op = false ∧
      isSecretUpdateOp op = false ∧ isAbnormalEvent op = false := by
  induction l with
  | nil => simp [gcTraceCM]
  | cons x xs ih =>
    intro op hop
    have : gcTraceCM (x :: xs) =
        Op.deleteConfigMapOp x.name :: Op.eventOp "Normal" "SuccessfulDeleted" :: gcTraceCM xs := rfl
    rw [this, List.mem_cons, List.mem_cons] at hop
    rcases hop with h | h | h
    · subst h; simp [isCreateOp, isUpdateOp, isSecretUpdateOp, isAbnormalEvent]
    · subst h; simp [isCreateOp, isUpdateOp, isSecretUpdateOp, isAbnormalEvent]
    · exact ih op h

theorem gcTraceDep_ops (l : List Deployment) :
    ∀ op ∈ gcTraceDep l, isCreateOp op = false ∧ isUpdateOp op = false ∧
      isSecretUpdateOp op = false ∧ isAbnormalEvent op = false := by
  induction l with
  | nil => simp [gcTraceDep]
  | cons x xs ih =>
    intro op hop
    have : gcTraceDep (x :: xs) =
        Op.deleteDeploymentOp x.name :: Op.eventOp "Normal" "SuccessfulDeleted" :: gcTraceDep xs := rfl
    rw [this, List.mem_cons, List.mem_cons] at hop
    rcases hop with h | h | h
    · subst h; simp [isCreateOp, isUpdateOp, isSecretUpdateOp, isAbnormalEvent]
    · subst h; simp [isCreateOp, isUpdateOp, isSecretUpdateOp, isAbnormalEvent]
    · exact ih op h

theorem cleanup_trace_ops (runner : Runner) (store : Store) :
    ∀ op ∈ (cleanupOwnedResources runner store).2, isCreateOp op = false ∧
      isUpdateOp op = false ∧ isSecretUpdateOp op = false ∧ isAbnormalEvent op = false := by
  intro op hop
  unfold cleanupOwnedResources at hop
  simp only at hop
  rcases List.mem_append.1 hop with h | h
  · exact gcTraceCM_ops _ op h
  · exact gcTraceDep_ops _ op h

theorem trace_counts_of_ops {tr : Trace}
    (h : ∀ op ∈ tr, isCreateOp op = false ∧ isUpdateOp op = false ∧
      isSecretUpdateOp op = false ∧ isAbnormalEvent op = false) :
    createCount tr = 0 ∧ updateCount tr = 0 ∧ hasSecretUpdate tr = false ∧
      hasAbnormalEvent tr = false := by
  refine ⟨?_, ?_, ?_, ?_⟩
  · unfold createCount
    rw [List.filter_eq_nil.2 (fun a ha => by simp [(h a ha).1]), List.length_nil]
  · unfold updateCount
    rw [List.filter_eq_nil.2 (fun a ha => by simp [(h a ha).2.1]), List.length_nil]
  · unfold hasSecretUpdate
    rw [List.any_eq_false.2 (fun a ha => by simp [(h a ha).2.2.1])]
  · unfold hasAbnormalEvent
    rw [List.any_eq_false.2 (fun a ha => by simp [(h a ha).2.2.2])]


/-! ## Phase lemmas -/

theorem createTokenSecret_ok_inv {r : RunnerReconciler} {env : Env} {runner : Runner}
    {s : K8sSecret} (h : createTokenSecret r env runner = GoResult.ok s) :
    s.name = runner.name ∧ s.ns = runner.ns ∧ s.owner = none := by
  unfold createTokenSecret at h
  repeat any_goals split at h
  all_goals first
    | (cases h; exact ⟨rfl, rfl, rfl⟩)
    | simp_all

theorem getSecret_put (store : Store) (s : K8sSecret) (ns name : String) :
    getSecret (putSecret store s) ns name =
      (store.secrets ++ [s]).find? (secKeyIs ns name) := rfl

theorem getSecret_update (store : Store) (s : K8sSecret) (ns name : String) :
    getSecret (storeUpdateSecret store s) ns name =
      (replaceIf (secKeyIs s.ns s.name) s store.secrets).find? (secKeyIs ns name) := rfl

theorem secretPhase_ok_inv {r : RunnerReconciler} {env : Env} {req : Request}
    {runner : Runner} {store : Store} {tr : Trace} {runner2 : Runner} {store2 : Store}
    {tr2 : Trace} {q : Int}
    (hn : runner.name = req.name) (hns : runner.ns = req.ns)
    (h : secretPhase r env req runner store tr = Except.ok (runner2, store2, tr2, q)) :
    store2.configMaps = store.configMaps ∧ store2.deployments = store.deployments ∧
    store2.runners = store.runners ∧
    (dynamicIssuance r runner →
      runner2 = withTokenRef runner req ∧
      ∃ exp, createTokenSecret r env runner = GoResult.ok exp ∧
        ∃ s, getSecret store2 req.ns req.name = some s ∧
          s.data = exp.data ∧ s.stringData = exp.stringData) ∧
    (¬ dynamicIssuance r runner → runner2 = runner ∧ store2 = store) := by
  unfold secretPhase at h
  by_cases hdyn : dynamicIssuance r runner
  · rw [if_pos hdyn] at h
    cases hget : getSecret store req.ns req.name with
    | none =>
      simp only [hget] at h
      cases hc : createTokenSecret r env runner with
      | err e => simp [hc] at h
      | goPanic e => simp [hc] at h
      | ok s0 =>
        simp only [hc] at h
        cases hp : parseRFC3339 ((lookupStr ({ s0 with owner := some runner.name } : K8sSecret).annots expiresAtKey).getD "") with
        | none => simp [hp] at h
        | some expire =>
          simp only [hp, Except.ok.injEq, Prod.mk.injEq] at h
          obtain ⟨h1, h2, h3, h4⟩ := h
          obtain ⟨hsn, hsns, _⟩ := createTokenSecret_ok_inv hc
          subst h1 h2 h3
          refine ⟨rfl, rfl, rfl, fun _ => ⟨rfl, s0, rfl, ?_⟩, fun hc' => absurd hdyn hc'⟩
          refine ⟨{ s0 with owner := some runner.name }, ?_, rfl, rfl⟩
          rw [getSecret_put, find?_append_left_none hget, List.find?_cons_of_pos]
          unfold secKeyIs
          simp [hsn, hsns, hn, hns]
    | some tokenSecret =>
      simp only [hget] at h
      cases hc : createTokenSecret r env runner with
      | err e => simp [hc] at h
      | goPanic e => simp [hc] at h
      | ok expected =>
        simp only [hc] at h
        by_cases hne : tokenSecret.data ≠ expected.data ∨ tokenSecret.stringData ≠ expected.stringData
        · rw [if_pos hne] at h
          cases hupd : env.updateSecretErr with
          | some e => simp [hupd] at h
          | none =>
            simp only [hupd] at h
            cases hp : parseRFC3339 ((lookupStr ({ tokenSecret with annots := expected.annots, data := expected.data, stringData := expected.stringData } : K8sSecret).annots expiresAtKey).getD "") with
            | none => simp [hp] at h
            | some expire =>
              simp only [hp, Except.ok.injEq, Prod.mk.injEq] at h
              obtain ⟨h1, h2, h3, h4⟩ := h
              subst h1 h2 h3
              obtain ⟨hts1, hts2⟩ := getSecret_keys hget
              refine ⟨rfl, rfl, rfl, fun _ => ⟨rfl, expected, rfl, ?_⟩, fun hc' => absurd hdyn hc'⟩
              refine ⟨{ tokenSecret with annots := expected.annots, data := expected.data, stringData := expected.stringData }, ?_, rfl, rfl⟩
              rw [getSecret_update]
              rw [show ({ tokenSecret with annots := expected.annots, data := expected.data, stringData := expected.stringData } : K8sSecret).ns = req.ns from hts1]
              rw [show ({ tokenSecret with annots := expected.annots, data := expected.data, stringData := expected.stringData } : K8sSecret).name = req.name from hts2]
              apply find?_replaceIf _ hget
              unfold secKeyIs
              simp [hts1, hts2]
        · rw [if_neg hne] at h
          simp only [Except.ok.injEq, Prod.mk.injEq] at h
          obtain ⟨h1, h2, h3, h4⟩ := h
          subst h1 h2 h3
          push_neg at hne
          exact ⟨rfl, rfl, rfl,
            fun _ => ⟨rfl, expected, rfl, tokenSecret, hget, hne.1, hne.2⟩,
            fun hc' => absurd hdyn hc'⟩
  · rw [if_neg hdyn] at h
    simp only [Except.ok.injEq, Prod.mk.injEq] at h
    obtain ⟨h1, h2, h3, h4⟩ := h
    subst h1 h2 h3
    exact ⟨rfl, rfl, rfl, fun hc' => absurd hc' hdyn, fun _ => ⟨rfl, rfl⟩⟩

theorem getConfigMap_put (store : Store) (c : ConfigMap) (ns name : String) :
    getConfigMap (putConfigMap store c) ns name =
      (store.configMaps ++ [c]).find? (cmKeyIs ns name) := rfl

theorem getConfigMap_update (store : Store) (c : ConfigMap) (ns name : String) :
    getConfigMap (storeUpdateConfigMap store c) ns name =
      (replaceIf (cmKeyIs c.ns c.name) c store.configMaps).find? (cmKeyIs ns name) := rfl

theorem getDeployment_put (store : Store) (d : Deployment) (ns name : String) :
    getDeployment (putDeployment store d) ns name =
      (store.deployments ++ [d]).find? (depKeyIs ns name) := rfl

theorem getDeployment_update (store : Store) (d : Deployment) (ns name : String) :
    getDeployment (storeUpdateDeployment store d) ns name =
      (replaceIf (depKeyIs d.ns d.name) d store.deployments).find? (depKeyIs ns name) := rfl

theorem buildWorkspaceConfigMap_name (r : RunnerReconciler) (runner : Runner) :
    (buildWorkspaceConfigMap r runner).name = runner.name ++ "-workspace" := rfl

theorem buildWorkspaceConfigMap_ns (r : RunnerReconciler) (runner : Runner) :
    (buildWorkspaceConfigMap r runner).ns = runner.ns := rfl

theorem buildDeployment_name (r : RunnerReconciler) (runner : Runner) :
    (buildDeployment r runner).2.name = runner.name ++ "-runner" := rfl

theorem buildDeployment_ns (r : RunnerReconciler) (runner : Runner) :
    (buildDeployment r runner).2.ns = runner.ns := rfl

theorem configMapPhase_ok_inv {r : RunnerReconciler} {env : Env} {req : Request}
    {runner : Runner} {store : Store} {tr : Trace} {store3 : Store} {tr3 : Trace}
    (hn : runner.name = req.name) (hns : runner.ns = req.ns)
    (h : configMapPhase r env req runner store tr = Except.ok (store3, tr3)) :
    store3.secrets = store.secrets ∧ store3.deployments = store.deployments ∧
    store3.runners = store.runners ∧
    (∃ cm, getConfigMap store3 req.ns (req.name ++ "-workspace") = some cm ∧
      cm.data = (buildWorkspaceConfigMap r runner).data ∧
      cm.binaryData = (buildWorkspaceConfigMap r runner).binaryData) ∧
    (∀ rx : Runner, rx.name = req.name →
      store.configMaps.filter (doomedCMPred rx) = [] →
      store3.configMaps.filter (doomedCMPred rx) = []) := by
  unfold configMapPhase at h
  cases hget : getConfigMap store req.ns (req.name ++ "-workspace") with
  | none =>
    simp only [hget, Except.ok.injEq, Prod.mk.injEq] at h
    obtain ⟨h1, h2⟩ := h
    subst h1 h2
    refine ⟨rfl, rfl, rfl,
      ⟨{ buildWorkspaceConfigMap r runner with owner := some runner.name }, ?_, rfl, rfl⟩, ?_⟩
    · rw [getConfigMap_put, find?_append_left_none hget, List.find?_cons_of_pos]
      unfold cmKeyIs
      rw [show ({ buildWorkspaceConfigMap r runner with owner := some runner.name } : ConfigMap).ns = runner.ns from rfl]
      rw [show ({ buildWorkspaceConfigMap r runner with owner := some runner.name } : ConfigMap).name = runner.name ++ "-workspace" from rfl]
      simp [hn, hns]
    · intro rx hrx hclean
      apply filter_append_single_nil hclean
      unfold doomedCMPred
      rw [show ({ buildWorkspaceConfigMap r runner with owner := some runner.name } : ConfigMap).name = runner.name ++ "-workspace" from rfl]
      simp [hn, hrx]
  | some cm0 =>
    simp only [hget] at h
    by_cases hne : cm0.data ≠ (buildWorkspaceConfigMap r runner).data ∨
        cm0.binaryData ≠ (buildWorkspaceConfigMap r runner).binaryData
    · rw [if_pos hne] at h
      cases hupd : env.updateConfigMapErr with
      | some e => simp [hupd] at h
      | none =>
        simp only [hupd, Except.ok.injEq, Prod.mk.injEq] at h
        obtain ⟨h1, h2⟩ := h
        subst h1 h2
        obtain ⟨hk1, hk2⟩ := getConfigMap_keys hget
        refine ⟨rfl, rfl, rfl,
          ⟨{ cm0 with data := (buildWorkspaceConfigMap r runner).data, binaryData := (buildWorkspaceConfigMap r runner).binaryData }, ?_, rfl, rfl⟩, ?_⟩
        · rw [getConfigMap_update]
          rw [show ({ cm0 with data := (buildWorkspaceConfigMap r runner).data, binaryData := (buildWorkspaceConfigMap r runner).binaryData } : ConfigMap).ns = req.ns from hk1]
          rw [show ({ cm0 with data := (buildWorkspaceConfigMap r runner).data, binaryData := (buildWorkspaceConfigMap r runner).binaryData } : ConfigMap).name = req.name ++ "-workspace" from hk2]
          apply find?_replaceIf _ hget
          unfold cmKeyIs
          simp [hk1, hk2]
        · intro rx hrx hclean
          apply filter_replaceIf_nil hclean
          unfold doomedCMPred
          rw [show ({ cm0 with data := (buildWorkspaceConfigMap r runner).data, binaryData := (buildWorkspaceConfigMap r runner).binaryData } : ConfigMap).name = req.name ++ "-workspace" from hk2]
          simp [hrx]
    · rw [if_neg hne] at h
      simp only [Except.ok.injEq, Prod.mk.injEq] at h
      obtain ⟨h1, h2⟩ := h
      subst h1 h2
      push_neg at hne
      exact ⟨rfl, rfl, rfl, ⟨cm0, hget, hne.1, hne.2⟩, fun rx hrx hclean => hclean⟩

theorem deploymentPhase_ok_inv {r : RunnerReconciler} {env : Env} {req : Request}
    {runner : Runner} {store : Store} {tr : Trace} {store4 : Store} {tr4 : Trace}
    (hn : runner.name = req.name) (hns : runner.ns = req.ns)
    (h : deploymentPhase r env req runner store tr = Except.ok (store4, tr4)) :
    store4.secrets = store.secrets ∧ store4.configMaps = store.configMaps ∧
    store4.runners = store.runners ∧
    (∃ d, getDeployment store4 req.ns (req.name ++ "-runner") = some d ∧
      d.template = (buildDeployment r runner).2.template) ∧
    (∀ rx : Runner, rx.name = req.name →
      store.deployments.filter (doomedDepPred rx) = [] →
      store4.deployments.filter (doomedDepPred rx) = []) := by
  unfold deploymentPhase at h
  cases hget : getDeployment store req.ns (req.name ++ "-runner") with
  | none =>
    simp only [hget, Except.ok.injEq, Prod.mk.injEq] at h
    obtain ⟨h1, h2⟩ := h
    subst h1 h2
    refine ⟨rfl, rfl, rfl,
      ⟨{ (buildDeployment r runner).2 with owner := some runner.name }, ?_, rfl⟩, ?_⟩
    · rw [getDeployment_put, find?_append_left_none hget, List.find?_cons_of_pos]
      unfold depKeyIs
      rw [show ({ (buildDeployment r runner).2 with owner := some runner.name } : Deployment).ns = runner.ns from rfl]
      rw [show ({ (buildDeployment r runner).2 with owner := some runner.name } : Deployment).name = runner.name ++ "-runner" from rfl]
      simp [hn, hns]
    · intro rx hrx hclean
      apply filter_append_single_nil hclean
      unfold doomedDepPred
      rw [show ({ (buildDeployment r runner).2 with owner := some runner.name } : Deployment).name = runner.name ++ "-runner" from rfl]
      simp [hn, hrx]
  | some d0 =>
    simp only [hget] at h
    by_cases hne : d0.template ≠ (buildDeployment r runner).2.template
    · rw [if_pos hne] at h
      cases hupd : env.updateDeploymentErr with
      | some e =>
        rw [hupd] at h
        by_cases hcf : goContains e optimisticLockErrorMsg
        · simp [hcf] at h
        · simp [hcf] at h
      | none =>
        simp only [hupd, Except.ok.injEq, Prod.mk.injEq] at h
        obtain ⟨h1, h2⟩ := h
        subst h1 h2
        obtain ⟨hk1, hk2⟩ := getDeployment_keys hget
        refine ⟨rfl, rfl, rfl,
          ⟨{ d0 with template := (buildDeployment r runner).2.template }, ?_, rfl⟩, ?_⟩
        · rw [getDeployment_update]
          rw [show ({ d0 with template := (buildDeployment r runner).2.template } : Deployment).ns = req.ns from hk1]
          rw [show ({ d0 with template := (buildDeployment r runner).2.template } : Deployment).name = req.name ++ "-runner" from hk2]
          apply find?_replaceIf _ hget
          unfold depKeyIs
          simp [hk1, hk2]
        · intro rx hrx hclean
          apply filter_replaceIf_nil hclean
          unfold doomedDepPred
          rw [show ({ d0 with template := (buildDeployment r runner).2.template } : Deployment).name = req.name ++ "-runner" from hk2]
          simp [hrx]
    · rw [if_neg hne] at h
      simp only [Except.ok.injEq, Prod.mk.injEq] at h
      obtain ⟨h1, h2⟩ := h
      subst h1 h2
      push_neg at hne
      exact ⟨rfl, rfl, rfl, ⟨d0, hget, hne⟩, fun rx hrx hclean => hclean⟩

theorem secretPhase_error_res {r : RunnerReconciler} {env : Env} {req : Request}
    {runner : Runner} {store : Store} {tr : Trace} {res : PassResult} {st : Store} {t : Trace}
    (h : secretPhase r env req runner store tr = Except.error (res, st, t)) :
    (∃ e, res = PassResult.err e) ∨ (∃ e, res = PassResult.panicked e) := by
  unfold secretPhase at h
  by_cases hdyn : dynamicIssuance r runner
  · rw [if_pos hdyn] at h
    cases hget : getSecret store req.ns req.name with
    | none =>
      simp only [hget] at h
      cases hc : createTokenSecret r env runner with
      | err e =>
        simp only [hc, Except.error.injEq, Prod.mk.injEq] at h
        exact Or.inl ⟨e, h.1.symm⟩
      | goPanic e =>
        simp only [hc, Except.error.injEq, Prod.mk.injEq] at h
        exact Or.inr ⟨e, h.1.symm⟩
      | ok s0 =>
        simp only [hc] at h
        cases hp : parseRFC3339 ((lookupStr ({ s0 with owner := some runner.name } : K8sSecret).annots expiresAtKey).getD "") with
        | none =>
          simp only [hp, Except.error.injEq, Prod.mk.injEq] at h
          exact Or.inl ⟨_, h.1.symm⟩
        | some expire => simp [hp] at h
    | some tokenSecret =>
      simp only [hget] at h
      cases hc : createTokenSecret r env runner with
      | err e =>
        simp only [hc, Except.error.injEq, Prod.mk.injEq] at h
        exact Or.inl ⟨e, h.1.symm⟩
      | goPanic e =>
        simp only [hc, Except.error.injEq, Prod.mk.injEq] at h
        exact Or.inr ⟨e, h.1.symm⟩
      | ok expected =>
        simp only [hc] at h
        by_cases hne : tokenSecret.data ≠ expected.data ∨ tokenSecret.stringData ≠ expected.stringData
        · rw [if_pos hne] at h
          cases hupd : env.updateSecretErr with
          | some e =>
            simp only [hupd, Except.error.injEq, Prod.mk.injEq] at h
            exact Or.inl ⟨e, h.1.symm⟩
          | none =>
            simp only [hupd] at h
            cases hp : parseRFC3339 ((lookupStr ({ tokenSecret with annots := expected.annots, data := expected.data, stringData := expected.stringData } : K8sSecret).annots expiresAtKey).getD "") with
            | none =>
              simp only [hp, Except.error.injEq, Prod.mk.injEq] at h
              exact Or.inl ⟨_, h.1.symm⟩
            | some expire => simp [hp] at h
        · rw [if_neg hne] at h
          simp at h
  · rw [if_neg hdyn] at h
    simp at h

theorem configMapPhase_error_res {r : RunnerReconciler} {env : Env} {req : Request}
    {runner : Runner} {store : Store} {tr : Trace} {res : PassResult} {st : Store} {t : Trace}
    (h : configMapPhase r env req runner store tr = Except.error (res, st, t)) :
    ∃ e, res = PassResult.err e := by
  unfold configMapPhase at h
  cases hget : getConfigMap store req.ns (req.name ++ "-workspace") with
  | none => simp [hget] at h
  | some cm0 =>
    simp only [hget] at h
    by_cases hne : cm0.data ≠ (buildWorkspaceConfigMap r runner).data ∨
        cm0.binaryData ≠ (buildWorkspaceConfigMap r runner).binaryData
    · rw [if_pos hne] at h
      cases hupd : env.updateConfigMapErr with
      | some e =>
        simp only [hupd, Except.error.injEq, Prod.mk.injEq] at h
        exact ⟨e, h.1.symm⟩
      | none => simp [hupd] at h
    · rw [if_neg hne] at h
      simp at h

theorem configMapPhase_total {r : RunnerReconciler} {env : Env} {req : Request}
    {runner : Runner} {store : Store} {tr : Trace}
    (hupd : env.updateConfigMapErr = none) :
    ∃ store3 tr3, configMapPhase r env req runner store tr = Except.ok (store3, tr3) := by
  cases hres : configMapPhase r env req runner store tr with
  | ok p => exact ⟨p.1, p.2, rfl⟩
  | error hlt =>
    exfalso
    unfold configMapPhase at hres
    cases hget : getConfigMap store req.ns (req.name ++ "-workspace") with
    | none => simp [hget] at hres
    | some cm0 =>
      simp only [hget] at hres
      by_cases hne : cm0.data ≠ (buildWorkspaceConfigMap r runner).data ∨
          cm0.binaryData ≠ (buildWorkspaceConfigMap r runner).binaryData
      · rw [if_pos hne] at hres
        rw [hupd] at hres
        simp at hres
      · rw [if_neg hne] at hres
        simp at hres

theorem deploymentPhase_total {r : RunnerReconciler} {env : Env} {req : Request}
    {runner : Runner} {store : Store} {tr : Trace}
    (hupd : env.updateDeploymentErr = none) :
    ∃ store4 tr4, deploymentPhase r env req runner store tr = Except.ok (store4, tr4) := by
  cases hres : deploymentPhase r env req runner store tr with
  | ok p => exact ⟨p.1, p.2, rfl⟩
  | error hlt =>
    exfalso
    unfold deploymentPhase at hres
    cases hget : getDeployment store req.ns (req.name ++ "-runner") with
    | none => simp [hget] at hres
    | some d0 =>
      simp only [hget] at hres
      by_cases hne : d0.template ≠ (buildDeployment r runner).2.template
      · rw [if_pos hne] at hres
        rw [hupd] at hres
        simp at hres
      · rw [if_neg hne] at hres
        simp at hres

theorem secretPhase_noop {r : RunnerReconciler} {env : Env} {req : Request}
    {runner : Runner} {store : Store} (tr : Trace)
    (h : dynamicIssuance r runner →
      ∃ exp, createTokenSecret r env runner = GoResult.ok exp ∧
        ∃ s, getSecret store req.ns req.name = some s ∧
          s.data = exp.data ∧ s.stringData = exp.stringData) :
    secretPhase r env req runner store tr =
      Except.ok ((if dynamicIssuance r runner then withTokenRef runner req else runner),
        store, tr, 0) := by
  unfold secretPhase
  by_cases hdyn : dynamicIssuance r runner
  · rw [if_pos hdyn, if_pos hdyn]
    obtain ⟨exp, hexp, s, hs, h1, h2⟩ := h hdyn
    simp only [hs, hexp]
    rw [if_neg]
    simp [h1, h2]
  · rw [if_neg hdyn, if_neg hdyn]

theorem configMapPhase_noop {r : RunnerReconciler} {env : Env} {req : Request}
    {runner : Runner} {store : Store} (tr : Trace)
    (h : ∃ cm, getConfigMap store req.ns (req.name ++ "-workspace") = some cm ∧
      cm.data = (buildWorkspaceConfigMap r runner).data ∧
      cm.binaryData = (buildWorkspaceConfigMap r runner).binaryData) :
    configMapPhase r env req runner store tr = Except.ok (store, tr) := by
  unfold configMapPhase
  obtain ⟨cm, hcm, h1, h2⟩ := h
  simp only [hcm]
  rw [if_neg]
  simp [h1, h2]

theorem deploymentPhase_noop {r : RunnerReconciler} {env : Env} {req : Request}
    {runner : Runner} {store : Store} (tr : Trace)
    (h : ∃ d, getDeployment store req.ns (req.name ++ "-runner") = some d ∧
      d.template = (buildDeployment r runner).2.template) :
    deploymentPhase r env req runner store tr = Except.ok (store, tr) := by
  unfold deploymentPhase
  obtain ⟨d, hd, h1⟩ := h
  simp only [hd]
  rw [if_neg]
  simp [h1]

/-! ## Convergence -/

/-- A store is converged for a request when, for the Runner it holds under
the request's key: the garbage collector finds nothing to delete, the
observed credential secret carries exactly the freshly computed token
material, and the observed config map and deployment carry exactly the
freshly computed content on their compared fields. -/
def Converged (r : RunnerReconciler) (env : Env) (req : Request) (store : Store) : Prop :=
  ∀ runner, getRunner store req.ns req.name = some runner →
    store.configMaps.filter (doomedCMPred runner) = [] ∧
    store.deployments.filter (doomedDepPred runner) = [] ∧
    (dynamicIssuance r runner →
      ∃ exp, createTokenSecret r env runner = GoResult.ok exp ∧
        ∃ s, getSecret store req.ns req.name = some s ∧
          s.data = exp.data ∧ s.stringData = exp.stringData) ∧
    (∃ cm, getConfigMap store req.ns (req.name ++ "-workspace") = some cm ∧
      cm.data = (buildWorkspaceConfigMap r
        (if dynamicIssuance r runner then withTokenRef runner req else runner)).data ∧
      cm.binaryData = (buildWorkspaceConfigMap r
        (if dynamicIssuance r runner then withTokenRef runner req else runner)).binaryData) ∧
    (∃ d, getDeployment store req.ns (req.name ++ "-runner") = some d ∧
      d.template = (buildDeployment r
        (if dynamicIssuance r runner then withTokenRef runner req else runner)).2.template)

theorem withTokenRef_name (runner : Runner) (req : Request) :
    (withTokenRef runner req).name = runner.name := rfl

theorem withTokenRef_ns (runner : Runner) (req : Request) :
    (withTokenRef runner req).ns = runner.ns := rfl

/-- A successful pass (with no injected deployment-update failure) leaves
the store converged. -/
theorem reconcile_ok_converged {r : RunnerReconciler} {env : Env} {req : Request}
    {store : Store} {q : Int}
    (hud : env.updateDeploymentErr = none)
    (h : (Reconcile r env req store).1 = PassResult.ok q) :
    Converged r env req ((Reconcile r env req store).2.1) := by
  unfold Reconcile at h ⊢
  cases hrun : getRunner store req.ns req.name with
  | none =>
    simp only [hrun]
    intro runner' hrun'
    rw [hrun] at hrun'
    exact absurd hrun' (by simp)
  | some runner =>
    simp only [hrun] at h ⊢
    obtain ⟨hns, hn⟩ := getRunner_keys hrun
    cases hsp : secretPhase r env req runner (cleanupOwnedResources runner store).1
        (cleanupOwnedResources runner store).2 with
    | error hlt =>
      rcases hlt with ⟨res, sth, th⟩
      simp only [hsp] at h
      rcases secretPhase_error_res hsp with ⟨e, he⟩ | ⟨e, he⟩ <;> subst he <;> simp at h
    | ok quad =>
      rcases quad with ⟨runner2, store2, tr2, rq⟩
      simp only [hsp] at h
      have hn2 : runner2.name = req.name := by
        rcases secretPhase_ok_inv hn hns hsp with ⟨_, _, _, hact, hinact⟩
        by_cases hdyn : dynamicIssuance r runner
        · rw [(hact hdyn).1, withTokenRef_name]; exact hn
        · rw [(hinact hdyn).1]; exact hn
      have hns2 : runner2.ns = req.ns := by
        rcases secretPhase_ok_inv hn hns hsp with ⟨_, _, _, hact, hinact⟩
        by_cases hdyn : dynamicIssuance r runner
        · rw [(hact hdyn).1, withTokenRef_ns]; exact hns
        · rw [(hinact hdyn).1]; exact hns
      cases hcm : configMapPhase r env req runner2 store2 tr2 with
      | error hlt =>
        rcases hlt with ⟨res, sth, th⟩
        simp only [hcm] at h
        rcases configMapPhase_error_res hcm with ⟨e, he⟩
        subst he
        simp at h
      | ok p3 =>
        rcases p3 with ⟨store3, tr3⟩
        simp only [hcm] at h
        cases hdp : deploymentPhase r env req runner2 store3 tr3 with
        | error hlt =>
          exfalso
          rcases @deploymentPhase_total r env req runner2 store3 tr3 hud with ⟨s4, t4, heq⟩
          rw [heq] at hdp
          exact absurd hdp (by simp)
        | ok p4 =>
          rcases p4 with ⟨store4, tr4⟩
          simp only [hcm, hdp]
          obtain ⟨spCM, spDep, spRun, spAct, spInact⟩ := secretPhase_ok_inv hn hns hsp
          obtain ⟨cpSec, cpDep, cpRun, cpCM, cpClean⟩ := configMapPhase_ok_inv hn2 hns2 hcm
          obtain ⟨dpSec, dpCM, dpRun, dpDep, dpClean⟩ := deploymentPhase_ok_inv hn2 hns2 hdp
          intro runner' hrun'
          have hrunners : store4.runners = store.runners := by
            rw [dpRun, cpRun, spRun, cleanup_runners]
          have hrun'' : runner' = runner := by
            unfold getRunner at hrun' hrun
            rw [hrunners, hrun] at hrun'
            exact (Option.some_inj.1 hrun').symm
          rw [hrun'']
          have hrunner2 : runner2 = if dynamicIssuance r runner then withTokenRef runner req else runner := by
            by_cases hdyn : dynamicIssuance r runner
            · rw [if_pos hdyn]; exact (spAct hdyn).1
            · rw [if_neg hdyn]; exact (spInact hdyn).1
          refine ⟨?_, ?_, ?_, ?_, ?_⟩
          · rw [dpCM]
            apply cpClean runner hn
            rw [spCM]
            exact cleanup_cm_clean runner store
          · apply dpClean runner hn
            rw [cpDep, spDep]
            exact cleanup_dep_clean runner store
          · intro hdyn
            rcases spAct hdyn with ⟨_, exp, hexp, s, hgets, hd1, hd2⟩
            refine ⟨exp, hexp, s, ?_, hd1, hd2⟩
            unfold getSecret at hgets ⊢
            rw [dpSec, cpSec]
            exact hgets
          · rcases cpCM with ⟨cm, hgetcm, hc1, hc2⟩
            refine ⟨cm, ?_, ?_, ?_⟩
            · unfold getConfigMap at hgetcm ⊢
              rw [dpCM]
              exact hgetcm
            · rw [hc1, hrunner2]
            · rw [hc2, hrunner2]
          · rcases dpDep with ⟨d, hgetd, hd1⟩
            exact ⟨d, hgetd, by rw [hd1, hrunner2]⟩

/-- On a converged store a pass is a pure no-op: it returns success with
no requeue, leaves the store unchanged, and issues no store calls and no
events. -/
theorem converged_no_writes {r : RunnerReconciler} {env : Env} {req : Request}
    {store : Store} (hc : Converged r env req store) :
    Reconcile r env req store = (PassResult.ok 0, store, []) := by
  unfold Reconcile
  cases hrun : getRunner store req.ns req.name with
  | none => rfl
  | some runner =>
    obtain ⟨hcleanCM, hcleanDep, hsec, hcm, hdep⟩ := hc runner hrun
    obtain ⟨hns, hn⟩ := getRunner_keys hrun
    simp only [cleanup_noop hcleanCM hcleanDep, secretPhase_noop [] hsec,
      configMapPhase_noop [] hcm, deploymentPhase_noop [] hdep]

/-! ## Hex-output lemmas for the reference normalizer -/

theorem foldr_byteHex_length (l : List Nat) :
    (l.foldr (fun b acc => byteHexChars b ++ acc) []).length = 2 * l.length := by
  induction l with
  | nil => rfl
  | cons b bs ih =>
    rw [List.foldr_cons, List.length_append, ih,
      show (byteHexChars b).length = 2 from rfl, List.length_cons]
    omega

theorem sha256hexChars_length (msg : List Nat) : (sha256hexChars msg).length = 64 := by
  unfold sha256hexChars
  rw [foldr_byteHex_length]
  rw [show (digestBytes (sha256Final msg)).length = 32 by
    simp [digestBytes, wordBytes]]

theorem sha256hex7_length (s : String) : (sha256hex7 s).length = 7 := by
  unfold sha256hex7
  show (List.take 7 (sha256hexChars (strBytes s))).length = 7
  rw [List.length_take, sha256hexChars_length]
  decide

theorem hexDigit_mem (n : Nat) (h : n < 16) :
    hexDigit n ∈ ("0123456789abcdef" : String).data := by
  have hall : ∀ m, m < 16 → hexDigit m ∈ ("0123456789abcdef" : String).data := by decide
  exact hall n h

theorem mem_byteHexChars {c : Char} {b : Nat} (h : c ∈ byteHexChars b) :
    c ∈ ("0123456789abcdef" : String).data := by
  unfold byteHexChars at h
  rw [List.mem_cons, List.mem_cons] at h
  rcases h with h | h | h
  · subst h; exact hexDigit_mem _ (Nat.mod_lt _ (by omega))
  · subst h; exact hexDigit_mem _ (Nat.mod_lt _ (by omega))
  · simp at h

theorem mem_foldr_byteHex {c : Char} {l : List Nat}
    (h : c ∈ l.foldr (fun b acc => byteHexChars b ++ acc) []) :
    c ∈ ("0123456789abcdef" : String).data := by
  induction l with
  | nil => simp at h
  | cons b bs ih =>
    rw [List.foldr_cons] at h
    rcases List.mem_append.1 h with h | h
    · exact mem_byteHexChars h
    · exact ih h

theorem sha256hex7_hex (s : String) :
    ∀ c ∈ (sha256hex7 s).data, c ∈ ("0123456789abcdef" : String).data := by
  intro c hc
  have : c ∈ sha256hexChars (strBytes s) := by
    unfold sha256hex7 at hc
    exact List.mem_of_mem_take hc
  exact mem_foldr_byteHex this

/-! ## Concrete fixtures for witnesses and counterexamples -/

def cfgW : RunnerReconciler :=
  { pushRegistryHost := "push.local", pullRegistryHost := "pull.local",
    enableRunnerMetrics := false, exporterImage := "exporter:latest",
    gitHubAppClientId := "cid", gitHubAppInstallationId := "iid", gitHubAppPrivateKey := "pk",
    kanikoImage := "kaniko:latest", binaryVersion := "0.1.0", runnerVersion := "2.300.0",
    disableupdate := false }

def runnerW : Runner :=
  { name := "r1", ns := "default", spec := { repository := "org/repo", image := "nginx" } }

def envW : Env :=
  { now := 1704067200,
    signedJwt := Except.ok "jwt",
    httpResponse := Except.ok
      { statusCode := 201,
        body := Except.ok { token := "tok123", expiresAt := "2024-01-01T01:00:00Z" } } }

def reqW : Request := { name := "r1", ns := "default" }

def storeW : Store := { runners := [runnerW] }

/-! ## Claim theorems -/

/-- C9: if the target Runner is not found when the reconcile pass fetches
it, the pass returns success with no re-invocation delay, leaves the store
untouched, and performs no operations at all. -/
theorem C9_runner_missing {r : RunnerReconciler} {env : Env} {req : Request} {store : Store}
    (h : getRunner store req.ns req.name = none) :
    Reconcile r env req store = (PassResult.ok 0, store, []) := by
  unfold Reconcile
  rw [h]

theorem C9_witness : Reconcile cfgW envW reqW { } = (PassResult.ok 0, { }, []) :=
  C9_runner_missing (by decide)

/-- C2: running the reconcile pass a second time immediately after a
successful pass (same configuration, same environment, no injected
deployment-update failure, no external change to the store) issues zero
create calls and zero update calls; in particular the second pass is a
complete no-op returning success with no requeue. -/
theorem C2_second_pass_no_writes {r : RunnerReconciler} {env : Env} {req : Request}
    {store : Store} {q : Int}
    (hud : env.updateDeploymentErr = none)
    (h : (Reconcile r env req store).1 = PassResult.ok q) :
    createCount (Reconcile r env req ((Reconcile r env req store).2.1)).2.2 = 0 ∧
    updateCount (Reconcile r env req ((Reconcile r env req store).2.1)).2.2 = 0 := by
  have hconv := reconcile_ok_converged hud h
  rw [converged_no_writes hconv]
  exact ⟨rfl, rfl⟩

theorem C2_witness :
    createCount (Reconcile cfgW envW reqW ((Reconcile cfgW envW reqW storeW).2.1)).2.2 = 0 ∧
    updateCount (Reconcile cfgW envW reqW ((Reconcile cfgW envW reqW storeW).2.1)).2.2 = 0 :=
  @C2_second_pass_no_writes cfgW envW reqW storeW 3540 rfl (by decide)

/-- C6 counterexample: the Desired-State Builder functions are not free of
effects on their input: on a Runner with no declared builder memory limit,
`buildBuilderContainer` (and hence `buildDeployment`) writes a defaulted
4Gi memory limit back into the Runner, and `buildDeployment` also writes
the merged labels and annotations back, so the returned Runner differs
from the input. -/
theorem C6_counterexample :
    (buildBuilderContainer cfgW runnerW).1 ≠ runnerW ∧
    (buildDeployment cfgW runnerW).1 ≠ runnerW := by
  constructor
  · intro h
    have := congrArg (fun x => x.spec.builderContainerSpec.resources.limits) h
    simp [buildBuilderContainer, runnerW, mapSet, lookupStr] at this
  · intro h
    have := congrArg (fun x => x.spec.template.labels) h
    simp [buildDeployment, buildBuilderContainer, runnerW, mergeMap, mapSet, lookupStr] at this

/-- C6 amended: the builders perform no I/O and are deterministic
functions of the Runner and configuration, but they mutate the input
Runner in place: `buildBuilderContainer` default-fills the builder
container's memory limit, and `buildDeployment` additionally writes the
merged labels and annotations into the Runner's pod-template metadata.
Every other field of the Runner is left unchanged, as this frame theorem
states. -/
theorem C6_builders_frame (r : RunnerReconciler) (runner : Runner) :
    ((buildBuilderContainer r runner).1.name = runner.name ∧
     (buildBuilderContainer r runner).1.ns = runner.ns ∧
     (buildBuilderContainer r runner).1.spec.repository = runner.spec.repository ∧
     (buildBuilderContainer r runner).1.spec.image = runner.spec.image ∧
     (buildBuilderContainer r runner).1.spec.tokenSecretKeyRef = runner.spec.tokenSecretKeyRef ∧
     (buildBuilderContainer r runner).1.spec.appSecretRef = runner.spec.appSecretRef ∧
     (buildBuilderContainer r runner).1.spec.runnerContainerSpec = runner.spec.runnerContainerSpec ∧
     (buildBuilderContainer r runner).1.spec.template = runner.spec.template ∧
     (buildBuilderContainer r runner).1.spec.builderContainerSpec.env = runner.spec.builderContainerSpec.env ∧
     (buildBuilderContainer r runner).1.spec.builderContainerSpec.envFrom = runner.spec.builderContainerSpec.envFrom ∧
     (buildBuilderContainer r runner).1.spec.builderContainerSpec.volumeMounts = runner.spec.builderContainerSpec.volumeMounts ∧
     (buildBuilderContainer r runner).1.spec.builderContainerSpec.resources.requests = runner.spec.builderContainerSpec.resources.requests) ∧
    ((buildDeployment r runner).1.name = runner.name ∧
     (buildDeployment r runner).1.ns = runner.ns ∧
     (buildDeployment r runner).1.spec.repository = runner.spec.repository ∧
     (buildDeployment r runner).1.spec.image = runner.spec.image ∧
     (buildDeployment r runner).1.spec.tokenSecretKeyRef = runner.spec.tokenSecretKeyRef ∧
     (buildDeployment r runner).1.spec.appSecretRef = runner.spec.appSecretRef ∧
     (buildDeployment r runner).1.spec.runnerContainerSpec = runner.spec.runnerContainerSpec ∧
     (buildDeployment r runner).1.spec.template.volumes = runner.spec.template.volumes ∧
     (buildDeployment r runner).1.spec.builderContainerSpec.env = runner.spec.builderContainerSpec.env ∧
     (buildDeployment r runner).1.spec.builderContainerSpec.envFrom = runner.spec.builderContainerSpec.envFrom ∧
     (buildDeployment r runner).1.spec.builderContainerSpec.volumeMounts = runner.spec.builderContainerSpec.volumeMounts ∧
     (buildDeployment r runner).1.spec.builderContainerSpec.resources.requests = runner.spec.builderContainerSpec.resources.requests) := by
  refine ⟨⟨rfl, rfl, rfl, rfl, rfl, rfl, rfl, rfl, rfl, rfl, rfl, rfl⟩,
    ⟨rfl, rfl, rfl, rfl, rfl, rfl, rfl, rfl, rfl, rfl, rfl, rfl⟩⟩

def cfgV1 : RunnerReconciler := { cfgW with binaryVersion := "ab", runnerVersion := "c" }

def cfgV2 : RunnerReconciler := { cfgW with binaryVersion := "a", runnerVersion := "bc" }

/-- C7 counterexample: distinct controller/runner version pairs do not
always force distinct identifiers: only the concatenation of the versions
enters the hash, so versions ("ab", "c") and ("a", "bc") collide on the
same image. -/
theorem C7_counterexample :
    cfgV1.binaryVersion ≠ cfgV2.binaryVersion ∧
    cfgV1.runnerVersion ≠ cfgV2.runnerVersion ∧
    buildRepositoryName cfgV1 runnerW = buildRepositoryName cfgV2 runnerW := by
  refine ⟨by decide, by decide, ?_⟩
  show sha256hex7 ("docker.io/library/nginx" ++ "ab" ++ "c") =
    sha256hex7 ("docker.io/library/nginx" ++ "a" ++ "bc")
  rfl

/-- C7 amended: the Reference Normalizer is a deterministic function
whose output is always exactly 7 lowercase hex characters, and a
malformed (unparseable) image reference falls back to hashing the raw
string concatenated with both version strings instead of failing; the
identifier depends only on the concatenation of the normalized-or-raw
reference with the two version strings, so distinct versions give
distinct identifiers only when the concatenations differ and the
truncated hashes do not collide. -/
theorem C7_normalizer (r : RunnerReconciler) (runner : Runner) :
    (buildRepositoryName r runner).length = 7 ∧
    (∀ c ∈ (buildRepositoryName r runner).data, c ∈ ("0123456789abcdef" : String).data) ∧
    (parseNormalizedNamed runner.spec.image = none →
      buildRepositoryName r runner =
        sha256hex7 (runner.spec.image ++ r.binaryVersion ++ r.runnerVersion)) := by
  unfold buildRepositoryName
  cases hp : parseNormalizedNamed runner.spec.image with
  | none =>
    exact ⟨sha256hex7_length _, sha256hex7_hex _, fun _ => rfl⟩
  | some named =>
    exact ⟨sha256hex7_length _, sha256hex7_hex _, fun hc => absurd hc (by simp)⟩

def runnerBadImg : Runner :=
  { name := "r1", ns := "default", spec := { repository := "org/repo", image := "NGINX" } }

theorem C7_witness :
    buildRepositoryName cfgW runnerBadImg = sha256hex7 ("NGINX" ++ "0.1.0" ++ "2.300.0") :=
  (C7_normalizer cfgW runnerBadImg).2.2 (by decide)

def straySecret : K8sSecret :=
  { name := "old-token", ns := "default", owner := some "r1",
    stringData := [("GITHUB_TOKEN", "x")] }

def storeStraySecret : Store := { runners := [runnerW], secrets := [straySecret] }

/-- C3 counterexample: the garbage-collection step does not cover
credential secrets.  A secret attributed to the Runner whose name differs
from the canonical credential name (the Runner's own name) survives
`cleanupOwnedResources` untouched. -/
theorem C3_counterexample :
    straySecret.owner = some runnerW.name ∧
    straySecret.name ≠ runnerW.name ∧
    (cleanupOwnedResources runnerW storeStraySecret).1.secrets = [straySecret] := by
  refine ⟨by decide, by decide, ?_⟩
  rw [cleanup_secrets]
  rfl

/-- C3 amended: at the start of every reconcile pass the
garbage-collection step deletes, for the config-map and deployment kinds,
every child attributed to the Runner via the owner index (same namespace,
controller owner equal to the Runner) whose name differs from that kind's
canonical name, and deletes no canonically-named child; credential
secrets are not garbage-collected — the step leaves the secret list
unchanged. -/
theorem C3_garbage_collection (runner : Runner) (store : Store) :
    (∀ cm ∈ store.configMaps, cm.ns = runner.ns → cm.owner = some runner.name →
      cm.name ≠ runner.name ++ "-workspace" →
      cm ∉ (cleanupOwnedResources runner store).1.configMaps) ∧
    (∀ cm ∈ store.configMaps, cm.name = runner.name ++ "-workspace" →
      cm ∈ (cleanupOwnedResources runner store).1.configMaps) ∧
    (∀ d ∈ store.deployments, d.ns = runner.ns → d.owner = some runner.name →
      d.name ≠ runner.name ++ "-runner" →
      d ∉ (cleanupOwnedResources runner store).1.deployments) ∧
    (∀ d ∈ store.deployments, d.name = runner.name ++ "-runner" →
      d ∈ (cleanupOwnedResources runner store).1.deployments) ∧
    (cleanupOwnedResources runner store).1.secrets = store.secrets := by
  rw [cleanup_store_eq]
  refine ⟨?_, ?_, ?_, ?_, rfl⟩
  · intro cm hmem h1 h2 h3 habs
    have hdoomed : doomedCMPred runner cm = true := by
      unfold doomedCMPred
      simp [h1, h2, h3]
    have hmemf := (List.mem_filter.1 habs).2
    rw [List.all_eq_true] at hmemf
    have := hmemf cm (List.mem_filter.2 ⟨hmem, hdoomed⟩)
    simp [cmKeyIs] at this
  · intro cm hmem hname
    apply List.mem_filter.2
    refine ⟨hmem, ?_⟩
    rw [List.all_eq_true]
    intro d hd
    have hdp := (List.mem_filter.1 hd).2
    unfold doomedCMPred at hdp
    simp only [Bool.and_eq_true, beq_iff_eq, bne_iff_ne, ne_eq] at hdp
    unfold cmKeyIs
    simp only [Bool.not_eq_true', Bool.and_eq_false_iff]
    by_cases hdn : d.name = cm.name
    · exact absurd (hdn.trans hname) hdp.2
    · right
      exact beq_eq_false_iff_ne.2 (fun hh => hdn hh.symm)
  · intro d hmem h1 h2 h3 habs
    have hdoomed : doomedDepPred runner d = true := by
      unfold doomedDepPred
      simp [h1, h2, h3]
    have hmemf := (List.mem_filter.1 habs).2
    rw [List.all_eq_true] at hmemf
    have := hmemf d (List.mem_filter.2 ⟨hmem, hdoomed⟩)
    simp [depKeyIs] at this
  · intro d hmem hname
    apply List.mem_filter.2
    refine ⟨hmem, ?_⟩
    rw [List.all_eq_true]
    intro x hx
    have hdp := (List.mem_filter.1 hx).2
    unfold doomedDepPred at hdp
    simp only [Bool.and_eq_true, beq_iff_eq, bne_iff_ne, ne_eq] at hdp
    unfold depKeyIs
    simp only [Bool.not_eq_true', Bool.and_eq_false_iff]
    by_cases hdn : x.name = d.name
    · exact absurd (hdn.trans hname) hdp.2
    · right
      exact beq_eq_false_iff_ne.2 (fun hh => hdn hh.symm)

def strayCM : ConfigMap :=
  { name := "r1-old", ns := "default", owner := some "r1",
    data := [("Dockerfile", "FROM scratch")] }

def canonCM : ConfigMap :=
  { name := "r1-workspace", ns := "default", owner := some "r1",
    data := [("Dockerfile", "FROM scratch")] }

def storeGCW : Store := { runners := [runnerW], configMaps := [strayCM, canonCM] }

theorem C3_witness :
    strayCM ∉ (cleanupOwnedResources runnerW storeGCW).1.configMaps ∧
    canonCM ∈ (cleanupOwnedResources runnerW storeGCW).1.configMaps ∧
    (cleanupOwnedResources runnerW storeGCW).1.secrets = storeGCW.secrets :=
  ⟨(C3_garbage_collection runnerW storeGCW).1 strayCM (by decide) (by decide) (by decide) (by decide),
   (C3_garbage_collection runnerW storeGCW).2.1 canonCM (by decide) (by decide),
   (C3_garbage_collection runnerW storeGCW).2.2.2.2⟩

def oldSecret : K8sSecret :=
  { name := "r1", ns := "default", owner := some "r1",
    annots := [(expiresAtKey, "2024-01-01T00:30:00Z")],
    stringData := [("GITHUB_TOKEN", "oldtok")] }

def envConflictSecret : Env := { envW with updateSecretErr := some optimisticLockErrorMsg }

def storeOldSecret : Store := { runners := [runnerW], secrets := [oldSecret] }

/-- C1 counterexample: a stale-version conflict on the credential-secret
update is not swallowed: the pass propagates it as a failure instead of
returning success with a one-second requeue.  Only the deployment update
has conflict handling. -/
theorem C1_counterexample :
    (Reconcile cfgW envConflictSecret reqW storeOldSecret).1 =
      PassResult.err optimisticLockErrorMsg ∧
    (Reconcile cfgW envConflictSecret reqW storeOldSecret).1 ≠ PassResult.ok 1 := by
  constructor
  · decide
  · decide

/-- C1 amended: only the workload deployment's update is protected
against stale-version conflicts: when the deployment update fails with an
error containing the optimistic-lock message, the pass returns success
with a fixed one-second requeue.  (Conflicts on the secret or config-map
updates propagate as the pass's error, as the counterexample shows.) -/
theorem C1_deployment_conflict_only {r : RunnerReconciler} {env : Env} {req : Request}
    {store : Store} {runner : Runner} {sel : SecretKeySelector} {d : Deployment} {e : String}
    (hrun : getRunner store req.ns req.name = some runner)
    (hstat : runner.spec.tokenSecretKeyRef = some sel)
    (hgc1 : store.configMaps.filter (doomedCMPred runner) = [])
    (hgc2 : store.deployments.filter (doomedDepPred runner) = [])
    (hcm : ∃ cm, getConfigMap store req.ns (req.name ++ "-workspace") = some cm ∧
      cm.data = (buildWorkspaceConfigMap r runner).data ∧
      cm.binaryData = (buildWorkspaceConfigMap r runner).binaryData)
    (hd : getDeployment store req.ns (req.name ++ "-runner") = some d)
    (hne : d.template ≠ (buildDeployment r runner).2.template)
    (herr : env.updateDeploymentErr = some e)
    (hconf : goContains e optimisticLockErrorMsg = true) :
    (Reconcile r env req store).1 = PassResult.ok 1 := by
  have hdynF : ¬ dynamicIssuance r runner := by
    intro hdyn
    unfold dynamicIssuance at hdyn
    rw [hstat] at hdyn
    exact absurd hdyn.1 (by simp)
  unfold Reconcile
  rw [hrun]
  simp only [cleanup_noop hgc1 hgc2]
  rw [secretPhase_noop [] (fun hdyn => absurd hdyn hdynF)]
  simp only [if_neg hdynF]
  rw [configMapPhase_noop [] hcm]
  unfold deploymentPhase
  simp only [hd]
  rw [if_pos hne, herr]
  simp only [hconf, if_true]

def runnerStatic : Runner :=
  { runnerW with spec := { runnerW.spec with
      tokenSecretKeyRef := some { name := "tok", key := "GITHUB_TOKEN" } } }

def cmConverged : ConfigMap :=
  { buildWorkspaceConfigMap cfgW runnerStatic with owner := some "r1" }

def depDiffering : Deployment :=
  { name := "r1-runner", ns := "default", owner := some "r1" }

def envConflictDep : Env := { envW with updateDeploymentErr := some optimisticLockErrorMsg }

def storeConflictDep : Store :=
  { runners := [runnerStatic], configMaps := [cmConverged], deployments := [depDiffering] }

set_option maxRecDepth 4000 in
theorem C1_witness :
    (Reconcile cfgW envConflictDep reqW storeConflictDep).1 = PassResult.ok 1 :=
  @C1_deployment_conflict_only cfgW envConflictDep reqW storeConflictDep runnerStatic
    { name := "tok", key := "GITHUB_TOKEN" } depDiffering optimisticLockErrorMsg
    rfl rfl rfl rfl
    ⟨cmConverged, rfl, rfl, rfl⟩ rfl (by decide) rfl (by decide)
theorem getSecret_cleanup (runner : Runner) (store : Store) (ns name : String) :
    getSecret (cleanupOwnedResources runner store).1 ns name = getSecret store ns name := by
  unfold getSecret
  rw [cleanup_secrets]

theorem secretPhase_create {r : RunnerReconciler} {env : Env} {req : Request}
    {runner : Runner} {store : Store} {exp : K8sSecret} {expire : Int} (tr : Trace)
    (hget : getSecret store req.ns req.name = none)
    (hdyn : dynamicIssuance r runner)
    (hexp : createTokenSecret r env runner = GoResult.ok exp)
    (hparse : parseRFC3339 ((lookupStr exp.annots expiresAtKey).getD "") = some expire) :
    secretPhase r env req runner store tr =
      Except.ok (withTokenRef runner req,
        putSecret store { exp with owner := some runner.name },
        tr ++ [Op.createSecretOp exp.name, Op.eventOp "Normal" "SuccessfulCreated"],
        expire - env.now - 60) := by
  unfold secretPhase
  rw [if_pos hdyn]
  simp only [hget, hexp]
  rw [show ({ exp with owner := some runner.name } : K8sSecret).annots = exp.annots from rfl]
  simp only [hparse]

theorem secretPhase_reissue {r : RunnerReconciler} {env : Env} {req : Request}
    {runner : Runner} {store : Store} {s exp : K8sSecret} {expire : Int} (tr : Trace)
    (hget : getSecret store req.ns req.name = some s)
    (hdyn : dynamicIssuance r runner)
    (hexp : createTokenSecret r env runner = GoResult.ok exp)
    (hne : s.data ≠ exp.data ∨ s.stringData ≠ exp.stringData)
    (hus : env.updateSecretErr = none)
    (hparse : parseRFC3339 ((lookupStr exp.annots expiresAtKey).getD "") = some expire) :
    secretPhase r env req runner store tr =
      Except.ok (withTokenRef runner req,
        storeUpdateSecret store
          { s with annots := exp.annots, data := exp.data, stringData := exp.stringData },
        tr ++ [Op.updateSecretOp s.name] ++ [Op.eventOp "Normal" "SuccessfulUpdated"],
        expire - env.now - 60) := by
  unfold secretPhase
  rw [if_pos hdyn]
  simp only [hget, hexp]
  rw [if_pos hne]
  simp only [hus]
  rw [show ({ s with annots := exp.annots, data := exp.data, stringData := exp.stringData } : K8sSecret).annots = exp.annots from rfl]
  simp only [hparse]

theorem secretPhase_update_err {r : RunnerReconciler} {env : Env} {req : Request}
    {runner : Runner} {store : Store} {s exp : K8sSecret} {e : String} (tr : Trace)
    (hget : getSecret store req.ns req.name = some s)
    (hdyn : dynamicIssuance r runner)
    (hexp : createTokenSecret r env runner = GoResult.ok exp)
    (hne : s.data ≠ exp.data ∨ s.stringData ≠ exp.stringData)
    (hus : env.updateSecretErr = some e) :
    secretPhase r env req runner store tr =
      Except.error (PassResult.err e, store, tr ++ [Op.updateSecretOp s.name]) := by
  unfold secretPhase
  rw [if_pos hdyn]
  simp only [hget, hexp]
  rw [if_pos hne]
  simp only [hus]

theorem secretPhase_update_parsefail {r : RunnerReconciler} {env : Env} {req : Request}
    {runner : Runner} {store : Store} {s exp : K8sSecret} (tr : Trace)
    (hget : getSecret store req.ns req.name = some s)
    (hdyn : dynamicIssuance r runner)
    (hexp : createTokenSecret r env runner = GoResult.ok exp)
    (hne : s.data ≠ exp.data ∨ s.stringData ≠ exp.stringData)
    (hus : env.updateSecretErr = none)
    (hparse : parseRFC3339 ((lookupStr exp.annots expiresAtKey).getD "") = none) :
    secretPhase r env req runner store tr =
      Except.error (PassResult.err "time parse error",
        storeUpdateSecret store
          { s with annots := exp.annots, data := exp.data, stringData := exp.stringData },
        tr ++ [Op.updateSecretOp s.name] ++ [Op.eventOp "Normal" "SuccessfulUpdated"]) := by
  unfold secretPhase
  rw [if_pos hdyn]
  simp only [hget, hexp]
  rw [if_pos hne]
  simp only [hus]
  rw [show ({ s with annots := exp.annots, data := exp.data, stringData := exp.stringData } : K8sSecret).annots = exp.annots from rfl]
  simp only [hparse]

theorem secretPhase_err {r : RunnerReconciler} {env : Env} {req : Request}
    {runner : Runner} {store : Store} {e : String} (tr : Trace)
    (hdyn : dynamicIssuance r runner)
    (hcts : createTokenSecret r env runner = GoResult.err e) :
    secretPhase r env req runner store tr = Except.error (PassResult.err e, store, tr) := by
  unfold secretPhase
  rw [if_pos hdyn]
  cases hget : getSecret store req.ns req.name with
  | none => simp only [hget, hcts]
  | some s => simp only [hget, hcts]

theorem secretPhase_panic {r : RunnerReconciler} {env : Env} {req : Request}
    {runner : Runner} {store : Store} {m : String} (tr : Trace)
    (hdyn : dynamicIssuance r runner)
    (hcts : createTokenSecret r env runner = GoResult.goPanic m) :
    secretPhase r env req runner store tr = Except.error (PassResult.panicked m, store, tr) := by
  unfold secretPhase
  rw [if_pos hdyn]
  cases hget : getSecret store req.ns req.name with
  | none => simp only [hget, hcts]
  | some s => simp only [hget, hcts]

/-- C5: whenever the credential secret is created or reissued during a
pass (and the rest of the pass completes without injected update
failures), the pass's returned re-invocation delay equals the
credential's expiry instant minus the current time minus one minute; if
the existing credential is unchanged, the credential branch contributes
no delay and the pass returns success with no requeue. -/
theorem C5_credential_requeue {r : RunnerReconciler} {env : Env} {req : Request}
    {store : Store} {runner : Runner} {exp : K8sSecret} {expire : Int}
    (hrun : getRunner store req.ns req.name = some runner)
    (hdyn : dynamicIssuance r runner)
    (hucm : env.updateConfigMapErr = none)
    (hud : env.updateDeploymentErr = none)
    (hexp : createTokenSecret r env runner = GoResult.ok exp)
    (hparse : parseRFC3339 ((lookupStr exp.annots expiresAtKey).getD "") = some expire) :
    (getSecret store req.ns req.name = none →
      (Reconcile r env req store).1 = PassResult.ok (expire - env.now - 60)) ∧
    (∀ s, getSecret store req.ns req.name = some s →
      (s.data ≠ exp.data ∨ s.stringData ≠ exp.stringData) →
      env.updateSecretErr = none →
      (Reconcile r env req store).1 = PassResult.ok (expire - env.now - 60)) ∧
    (∀ s, getSecret store req.ns req.name = some s →
      s.data = exp.data ∧ s.stringData = exp.stringData →
      (Reconcile r env req store).1 = PassResult.ok 0) := by
  refine ⟨?_, ?_, ?_⟩
  · intro hnone
    have hget : getSecret (cleanupOwnedResources runner store).1 req.ns req.name = none := by
      rw [getSecret_cleanup]; exact hnone
    unfold Reconcile
    simp only [hrun, secretPhase_create (cleanupOwnedResources runner store).2 hget hdyn hexp hparse]
    obtain ⟨st3, tr3, hcm⟩ := @configMapPhase_total r env req (withTokenRef runner req)
      (putSecret (cleanupOwnedResources runner store).1 { exp with owner := some runner.name })
      ((cleanupOwnedResources runner store).2 ++
        [Op.createSecretOp exp.name, Op.eventOp "Normal" "SuccessfulCreated"]) hucm
    simp only [hcm]
    obtain ⟨st4, tr4, hdp⟩ := @deploymentPhase_total r env req (withTokenRef runner req) st3 tr3 hud
    simp only [hdp]
  · intro s hs hne hus
    have hget : getSecret (cleanupOwnedResources runner store).1 req.ns req.name = some s := by
      rw [getSecret_cleanup]; exact hs
    unfold Reconcile
    simp only [hrun, secretPhase_reissue (cleanupOwnedResources runner store).2 hget hdyn hexp hne hus hparse]
    obtain ⟨st3, tr3, hcm⟩ := @configMapPhase_total r env req (withTokenRef runner req)
      (storeUpdateSecret (cleanupOwnedResources runner store).1
        { s with annots := exp.annots, data := exp.data, stringData := exp.stringData })
      ((cleanupOwnedResources runner store).2 ++
        [Op.updateSecretOp s.name] ++ [Op.eventOp "Normal" "SuccessfulUpdated"]) hucm
    simp only [hcm]
    obtain ⟨st4, tr4, hdp⟩ := @deploymentPhase_total r env req (withTokenRef runner req) st3 tr3 hud
    simp only [hdp]
  · intro s hs heq
    have hnoop : dynamicIssuance r runner →
        ∃ e2, createTokenSecret r env runner = GoResult.ok e2 ∧
          ∃ s2, getSecret (cleanupOwnedResources runner store).1 req.ns req.name = some s2 ∧
            s2.data = e2.data ∧ s2.stringData = e2.stringData := by
      intro _
      exact ⟨exp, hexp, s, by rw [getSecret_cleanup]; exact hs, heq.1, heq.2⟩
    unfold Reconcile
    simp only [hrun, secretPhase_noop (cleanupOwnedResources runner store).2 hnoop, if_pos hdyn]
    obtain ⟨st3, tr3, hcm⟩ := @configMapPhase_total r env req (withTokenRef runner req)
      (cleanupOwnedResources runner store).1 (cleanupOwnedResources runner store).2 hucm
    simp only [hcm]
    obtain ⟨st4, tr4, hdp⟩ := @deploymentPhase_total r env req (withTokenRef runner req) st3 tr3 hud
    simp only [hdp]

def tokW5m : AccessToken := { token := "tok123", expiresAt := "2024-01-01T00:05:00Z" }

def tokW30s : AccessToken := { token := "tok123", expiresAt := "2024-01-01T00:00:30Z" }

def envW5m : Env := { envW with httpResponse := Except.ok { statusCode := 201, body := Except.ok tokW5m } }

def envW30s : Env := { envW with httpResponse := Except.ok { statusCode := 201, body := Except.ok tokW30s } }

def expSecret (runner : Runner) (t : AccessToken) : K8sSecret :=
  { name := runner.name, ns := runner.ns,
    annots := [(expiresAtKey, t.expiresAt)], data := [],
    stringData := [("GITHUB_TOKEN", t.token)] }

theorem C5_witness :
    (Reconcile cfgW envW5m reqW storeW).1 = PassResult.ok (1704067500 - 1704067200 - 60) ∧
    (Reconcile cfgW envW30s reqW storeW).1 = PassResult.ok (1704067230 - 1704067200 - 60) :=
  ⟨(@C5_credential_requeue cfgW envW5m reqW storeW runnerW (expSecret runnerW tokW5m) 1704067500
      (by decide) (by decide) rfl rfl (by decide) (by decide)).1 (by decide),
   (@C5_credential_requeue cfgW envW30s reqW storeW runnerW (expSecret runnerW tokW30s) 1704067230
      (by decide) (by decide) rfl rfl (by decide) (by decide)).1 (by decide)⟩

theorem goSplitN2_get1 {s sep : String} (h : goContains s sep = true) :
    ∃ y, (goSplitN2 s sep).get? 1 = some y := by
  have hlen : 2 ≤ (goSplit s sep).length := of_decide_eq_true h
  unfold goSplitN2
  cases hs : goSplit s sep with
  | nil => rw [hs] at hlen; simp at hlen
  | cons x rest =>
    cases rest with
    | nil => rw [hs] at hlen; simp at hlen
    | cons y rest2 => exact ⟨joinSep sep (y :: rest2), rfl⟩

theorem createTokenSecret_unexpected_status {r : RunnerReconciler} {env : Env}
    {runner : Runner} {jwt : String} {resp : HttpResponse}
    (hjwt : env.signedJwt = Except.ok jwt)
    (hslash : goContains runner.spec.repository "/" = true)
    (hhttp : env.httpResponse = Except.ok resp)
    (hstat : resp.statusCode ≠ 201) :
    createTokenSecret r env runner =
      GoResult.err ("failed to get access token: " ++ toString resp.statusCode) := by
  obtain ⟨y, hy⟩ := goSplitN2_get1 hslash
  unfold createTokenSecret
  simp only [hjwt, hy, hhttp]
  rw [if_pos hstat]

/-- C8 amended: if the identity service's token-issuance response status
is anything other than Created (HTTP 201), credential creation fails with
an unexpected-status error, no child is created or updated in the pass,
and the error propagates as the pass's failure; no failure event is
recorded — the controller emits events only for successful operations,
so every event of the pass (at most garbage-collection deletions) is of
type Normal. -/
theorem C8_unexpected_status {r : RunnerReconciler} {env : Env} {req : Request}
    {store : Store} {runner : Runner} {jwt : String} {resp : HttpResponse}
    (hrun : getRunner store req.ns req.name = some runner)
    (hdyn : dynamicIssuance r runner)
    (hjwt : env.signedJwt = Except.ok jwt)
    (hslash : goContains runner.spec.repository "/" = true)
    (hhttp : env.httpResponse = Except.ok resp)
    (hstat : resp.statusCode ≠ 201) :
    (Reconcile r env req store).1 =
      PassResult.err ("failed to get access token: " ++ toString resp.statusCode) ∧
    createCount (Reconcile r env req store).2.2 = 0 ∧
    updateCount (Reconcile r env req store).2.2 = 0 ∧
    hasAbnormalEvent (Reconcile r env req store).2.2 = false := by
  have hcts := @createTokenSecret_unexpected_status r env runner jwt resp hjwt hslash hhttp hstat
  unfold Reconcile
  simp only [hrun, secretPhase_err (cleanupOwnedResources runner store).2 hdyn hcts]
  have htr := trace_counts_of_ops (cleanup_trace_ops runner store)
  exact ⟨True.intro, htr.1, htr.2.1, htr.2.2.2⟩

def resp403 : HttpResponse := { statusCode := 403, body := Except.error "forbidden" }

def env403 : Env := { envW with httpResponse := Except.ok resp403 }

/-- C8 counterexample: on an HTTP 403 from the identity service the pass
fails and creates nothing, but no failure event is recorded — on a store
with nothing to garbage-collect, the pass's trace is empty, so the
claimed failure event does not exist. -/
theorem C8_counterexample :
    (Reconcile cfgW env403 reqW storeW).1 = PassResult.err "failed to get access token: 403" ∧
    createCount (Reconcile cfgW env403 reqW storeW).2.2 = 0 ∧
    (Reconcile cfgW env403 reqW storeW).2.2 = [] := by
  refine ⟨by decide, by decide, by decide⟩

theorem C8_witness :
    (Reconcile cfgW env403 reqW storeW).1 =
      PassResult.err ("failed to get access token: " ++ toString resp403.statusCode) ∧
    createCount (Reconcile cfgW env403 reqW storeW).2.2 = 0 ∧
    updateCount (Reconcile cfgW env403 reqW storeW).2.2 = 0 ∧
    hasAbnormalEvent (Reconcile cfgW env403 reqW storeW).2.2 = false :=
  @C8_unexpected_status cfgW env403 reqW storeW runnerW "jwt" resp403
    (by decide) (by decide) rfl (by decide) rfl (by decide)

theorem createTokenSecret_panics {r : RunnerReconciler} {env : Env} {runner : Runner}
    {jwt : String}
    (hjwt : env.signedJwt = Except.ok jwt)
    (hnoslash : goContains runner.spec.repository "/" = false) :
    createTokenSecret r env runner =
      GoResult.goPanic "runtime error: index out of range [1] with length 1" := by
  have hlen : ¬ 2 ≤ (goSplit runner.spec.repository "/").length := of_decide_eq_false hnoslash
  have hget : (goSplitN2 runner.spec.repository "/").get? 1 = none := by
    unfold goSplitN2
    cases hs : goSplit runner.spec.repository "/" with
    | nil => rfl
    | cons x rest =>
      cases rest with
      | nil => rfl
      | cons y rest2 =>
        exfalso
        apply hlen
        rw [hs]
        simp only [List.length_cons]
        omega
  unfold createTokenSecret
  simp only [hjwt, hget]

theorem createTokenSecret_no_panic {r : RunnerReconciler} {env : Env} {runner : Runner}
    (hslash : goContains runner.spec.repository "/" = true) :
    ∀ m, createTokenSecret r env runner ≠ GoResult.goPanic m := by
  intro m
  obtain ⟨y, hy⟩ := goSplitN2_get1 hslash
  unfold createTokenSecret
  cases hj : env.signedJwt with
  | error e => simp
  | ok jwt =>
    simp only [hy]
    cases hh : env.httpResponse with
    | error e => simp
    | ok resp =>
      by_cases hst : resp.statusCode ≠ 201
      · simp only [if_pos hst]
        simp
      · simp only [if_neg hst]
        cases hb : resp.body with
        | error e => simp
        | ok tokv => simp

/-- C10: building the token-issuance request is only total when the
Runner's repository contains a "/" separator: when it does not, the
owner-stripping index `strings.SplitN(repository, "/", 2)[1]` is out of
range and a reconcile pass with dynamic credential issuance configured
panics instead of returning an error; when the repository does contain a
"/", `createTokenSecret` never panics. -/
theorem C10_no_slash_panics {r : RunnerReconciler} {env : Env} {req : Request}
    {store : Store} {runner : Runner} {jwt : String}
    (hrun : getRunner store req.ns req.name = some runner)
    (hdyn : dynamicIssuance r runner)
    (hjwt : env.signedJwt = Except.ok jwt)
    (hnoslash : goContains runner.spec.repository "/" = false) :
    (Reconcile r env req store).1 =
      PassResult.panicked "runtime error: index out of range [1] with length 1" ∧
    (∀ runner' : Runner, goContains runner'.spec.repository "/" = true →
      ∀ env' : Env, ∀ m : String, createTokenSecret r env' runner' ≠ GoResult.goPanic m) := by
  constructor
  · unfold Reconcile
    simp only [hrun,
      secretPhase_panic (cleanupOwnedResources runner store).2 hdyn
        (createTokenSecret_panics hjwt hnoslash)]
  · intro runner' hcont env' m
    exact createTokenSecret_no_panic hcont m

def runnerNoSlash : Runner :=
  { name := "r1", ns := "default", spec := { repository := "norepo", image := "nginx" } }

def storeNoSlash : Store := { runners := [runnerNoSlash] }

theorem C10_witness :
    (Reconcile cfgW envW reqW storeNoSlash).1 =
      PassResult.panicked "runtime error: index out of range [1] with length 1" ∧
    createTokenSecret cfgW envW runnerW ≠ GoResult.goPanic "x" :=
  ⟨(@C10_no_slash_panics cfgW envW reqW storeNoSlash runnerNoSlash "jwt"
      (by decide) (by decide) rfl (by decide)).1,
   (@C10_no_slash_panics cfgW envW reqW storeNoSlash runnerNoSlash "jwt"
      (by decide) (by decide) rfl (by decide)).2 runnerW (by decide) envW "x"⟩

theorem hasSecretUpdate_append (a b : Trace) :
    hasSecretUpdate (a ++ b) = (hasSecretUpdate a || hasSecretUpdate b) := by
  unfold hasSecretUpdate
  exact List.any_append

theorem configMapPhase_noSecretUpdate {r : RunnerReconciler} {env : Env} {req : Request}
    {runner : Runner} {store : Store} {tr : Trace} :
    (∀ st3 tr3, configMapPhase r env req runner store tr = Except.ok (st3, tr3) →
      hasSecretUpdate tr3 = hasSecretUpdate tr) ∧
    (∀ res st3 tr3, configMapPhase r env req runner store tr = Except.error (res, st3, tr3) →
      hasSecretUpdate tr3 = hasSecretUpdate tr) := by
  constructor
  · intro st3 tr3 h
    unfold configMapPhase at h
    cases hget : getConfigMap store req.ns (req.name ++ "-workspace") with
    | none =>
      simp only [hget, Except.ok.injEq, Prod.mk.injEq] at h
      rw [← h.2, hasSecretUpdate_append]
      simp [hasSecretUpdate, isSecretUpdateOp]
    | some cm0 =>
      simp only [hget] at h
      by_cases hne : cm0.data ≠ (buildWorkspaceConfigMap r runner).data ∨
          cm0.binaryData ≠ (buildWorkspaceConfigMap r runner).binaryData
      · rw [if_pos hne] at h
        cases hupd : env.updateConfigMapErr with
        | some e => simp [hupd] at h
        | none =>
          simp only [hupd, Except.ok.injEq, Prod.mk.injEq] at h
          rw [← h.2, hasSecretUpdate_append, hasSecretUpdate_append]
          simp [hasSecretUpdate, isSecretUpdateOp]
      · rw [if_neg hne] at h
        simp only [Except.ok.injEq, Prod.mk.injEq] at h
        rw [← h.2]
  · intro res st3 tr3 h
    unfold configMapPhase at h
    cases hget : getConfigMap store req.ns (req.name ++ "-workspace") with
    | none => simp [hget] at h
    | some cm0 =>
      simp only [hget] at h
      by_cases hne : cm0.data ≠ (buildWorkspaceConfigMap r runner).data ∨
          cm0.binaryData ≠ (buildWorkspaceConfigMap r runner).binaryData
      · rw [if_pos hne] at h
        cases hupd : env.updateConfigMapErr with
        | some e =>
          simp only [hupd, Except.error.injEq, Prod.mk.injEq] at h
          rw [← h.2.2, hasSecretUpdate_append]
          simp [hasSecretUpdate, isSecretUpdateOp]
        | none => simp [hupd] at h
      · rw [if_neg hne] at h
        simp at h

theorem deploymentPhase_noSecretUpdate {r : RunnerReconciler} {env : Env} {req : Request}
    {runner : Runner} {store : Store} {tr : Trace} :
    (∀ st4 tr4, deploymentPhase r env req runner store tr = Except.ok (st4, tr4) →
      hasSecretUpdate tr4 = hasSecretUpdate tr) ∧
    (∀ res st4 tr4, deploymentPhase r env req runner store tr = Except.error (res, st4, tr4) →
      hasSecretUpdate tr4 = hasSecretUpdate tr) := by
  constructor
  · intro st4 tr4 h
    unfold deploymentPhase at h
    cases hget : getDeployment store req.ns (req.name ++ "-runner") with
    | none =>
      simp only [hget, Except.ok.injEq, Prod.mk.injEq] at h
      rw [← h.2, hasSecretUpdate_append]
      simp [hasSecretUpdate, isSecretUpdateOp]
    | some d0 =>
      simp only [hget] at h
      by_cases hne : d0.template ≠ (buildDeployment r runner).2.template
      · rw [if_pos hne] at h
        cases hupd : env.updateDeploymentErr with
        | some e =>
          rw [hupd] at h
          by_cases hcf : goContains e optimisticLockErrorMsg
          · simp [hcf] at h
          · simp [hcf] at h
        | none =>
          simp only [hupd, Except.ok.injEq, Prod.mk.injEq] at h
          rw [← h.2, hasSecretUpdate_append, hasSecretUpdate_append]
          simp [hasSecretUpdate, isSecretUpdateOp]
      · rw [if_neg hne] at h
        simp only [Except.ok.injEq, Prod.mk.injEq] at h
        rw [← h.2]
  · intro res st4 tr4 h
    unfold deploymentPhase at h
    cases hget : getDeployment store req.ns (req.name ++ "-runner") with
    | none => simp [hget] at h
    | some d0 =>
      simp only [hget] at h
      by_cases hne : d0.template ≠ (buildDeployment r runner).2.template
      · rw [if_pos hne] at h
        cases hupd : env.updateDeploymentErr with
        | some e =>
          simp only [hupd] at h
          by_cases hcf : goContains e optimisticLockErrorMsg
          · rw [if_pos hcf] at h
            simp only [Except.error.injEq, Prod.mk.injEq] at h
            rw [← h.2.2, hasSecretUpdate_append]
            simp [hasSecretUpdate, isSecretUpdateOp]
          · rw [if_neg hcf] at h
            simp only [Except.error.injEq, Prod.mk.injEq] at h
            rw [← h.2.2, hasSecretUpdate_append]
            simp [hasSecretUpdate, isSecretUpdateOp]
        | none => simp [hupd] at h
      · rw [if_neg hne] at h
        simp at h

/-- C4 amended: when the credential secret already exists (dynamic
issuance configured, token freshly computed), the pass issues an update
to it if and only if its token material — the `Data` or `StringData`
fields — differs from the freshly computed expected secret.  Annotations
are overwritten when an update is issued but a difference in annotations
alone does not trigger one. -/
theorem C4_secret_update_iff {r : RunnerReconciler} {env : Env} {req : Request}
    {store : Store} {runner : Runner} {s exp : K8sSecret}
    (hrun : getRunner store req.ns req.name = some runner)
    (hdyn : dynamicIssuance r runner)
    (hs : getSecret store req.ns req.name = some s)
    (hexp : createTokenSecret r env runner = GoResult.ok exp) :
    (hasSecretUpdate (Reconcile r env req store).2.2 = true ↔
      (s.data ≠ exp.data ∨ s.stringData ≠ exp.stringData)) := by
  have hgc : hasSecretUpdate (cleanupOwnedResources runner store).2 = false :=
    (trace_counts_of_ops (cleanup_trace_ops runner store)).2.2.1
  have hget : getSecret (cleanupOwnedResources runner store).1 req.ns req.name = some s := by
    rw [getSecret_cleanup]; exact hs
  by_cases hne : s.data ≠ exp.data ∨ s.stringData ≠ exp.stringData
  · refine iff_of_true ?_ hne
    unfold Reconcile
    cases hupd : env.updateSecretErr with
    | some e =>
      simp only [hrun,
        secretPhase_update_err (cleanupOwnedResources runner store).2 hget hdyn hexp hne hupd]
      rw [hasSecretUpdate_append, hgc]
      simp [hasSecretUpdate, isSecretUpdateOp]
    | none =>
      cases hp : parseRFC3339 ((lookupStr exp.annots expiresAtKey).getD "") with
      | none =>
        simp only [hrun,
          secretPhase_update_parsefail (cleanupOwnedResources runner store).2 hget hdyn hexp hne hupd hp]
        rw [hasSecretUpdate_append, hasSecretUpdate_append, hgc]
        simp [hasSecretUpdate, isSecretUpdateOp]
      | some expire =>
        simp only [hrun,
          secretPhase_reissue (cleanupOwnedResources runner store).2 hget hdyn hexp hne hupd hp]
        set S2 := storeUpdateSecret (cleanupOwnedResources runner store).1
          { s with annots := exp.annots, data := exp.data, stringData := exp.stringData } with hS2
        set T := (cleanupOwnedResources runner store).2 ++
          [Op.updateSecretOp s.name] ++ [Op.eventOp "Normal" "SuccessfulUpdated"] with hT
        have hTtrue : hasSecretUpdate T = true := by
          rw [hT, hasSecretUpdate_append, hasSecretUpdate_append, hgc]
          simp [hasSecretUpdate, isSecretUpdateOp]
        cases hcm : configMapPhase r env req (withTokenRef runner req) S2 T with
        | error hlt =>
          rcases hlt with ⟨resh, sth, trh⟩
          rw [configMapPhase_noSecretUpdate.2 resh sth trh hcm, hTtrue]
        | ok p3 =>
          rcases p3 with ⟨st3, tr3⟩
          have h3 : hasSecretUpdate tr3 = true := by
            rw [configMapPhase_noSecretUpdate.1 st3 tr3 hcm, hTtrue]
          cases hdp : deploymentPhase r env req (withTokenRef runner req) st3 tr3 with
          | error hlt =>
            rcases hlt with ⟨resh, sth, trh⟩
            simp only [hdp]
            rw [deploymentPhase_noSecretUpdate.2 resh sth trh hdp, h3]
          | ok p4 =>
            rcases p4 with ⟨st4, tr4⟩
            simp only [hdp]
            rw [deploymentPhase_noSecretUpdate.1 st4 tr4 hdp, h3]
  · refine iff_of_false ?_ hne
    rw [not_or] at hne
    have h1 : s.data = exp.data := not_not.1 hne.1
    have h2 : s.stringData = exp.stringData := not_not.1 hne.2
    have hval : hasSecretUpdate (Reconcile r env req store).2.2 = false := by
      unfold Reconcile
      simp only [hrun,
        secretPhase_noop (cleanupOwnedResources runner store).2
          (fun _ => ⟨exp, hexp, s, hget, h1, h2⟩), if_pos hdyn]
      set S1 := (cleanupOwnedResources runner store).1 with hS1
      set T := (cleanupOwnedResources runner store).2 with hT
      cases hcm : configMapPhase r env req (withTokenRef runner req) S1 T with
      | error hlt =>
        rcases hlt with ⟨resh, sth, trh⟩
        rw [configMapPhase_noSecretUpdate.2 resh sth trh hcm, hT]
        exact hgc
      | ok p3 =>
        rcases p3 with ⟨st3, tr3⟩
        have h3 : hasSecretUpdate tr3 = false := by
          rw [configMapPhase_noSecretUpdate.1 st3 tr3 hcm, hT]
          exact hgc
        cases hdp : deploymentPhase r env req (withTokenRef runner req) st3 tr3 with
        | error hlt =>
          rcases hlt with ⟨resh, sth, trh⟩
          simp only [hdp]
          rw [deploymentPhase_noSecretUpdate.2 resh sth trh hdp, h3]
        | ok p4 =>
          rcases p4 with ⟨st4, tr4⟩
          simp only [hdp]
          rw [deploymentPhase_noSecretUpdate.1 st4 tr4 hdp, h3]
    simp [hval]

def expW : K8sSecret :=
  { name := "r1", ns := "default",
    annots := [(expiresAtKey, "2024-01-01T01:00:00Z")], data := [],
    stringData := [("GITHUB_TOKEN", "tok123")] }

def secretSameData : K8sSecret :=
  { name := "r1", ns := "default", owner := some "r1",
    annots := [(expiresAtKey, "1999-01-01T00:00:00Z")], data := [],
    stringData := [("GITHUB_TOKEN", "tok123")] }

def storeSameData : Store := { runners := [runnerW], secrets := [secretSameData] }

/-- C4 counterexample: an existing credential secret whose token material
equals the freshly computed expected secret but whose annotations differ
receives no update — the comparison covers only `Data` and `StringData`,
not the annotations, refuting the claimed if-and-only-if. -/
theorem C4_counterexample :
    createTokenSecret cfgW envW runnerW = GoResult.ok expW ∧
    secretSameData.data = expW.data ∧
    secretSameData.stringData = expW.stringData ∧
    secretSameData.annots ≠ expW.annots ∧
    hasSecretUpdate (Reconcile cfgW envW reqW storeSameData).2.2 = false := by
  refine ⟨by decide, rfl, rfl, by decide, by decide⟩

def secretDiffData : K8sSecret :=
  { name := "r1", ns := "default", owner := some "r1",
    annots := [(expiresAtKey, "2023-01-01T00:00:00Z")], data := [],
    stringData := [("GITHUB_TOKEN", "oldtok")] }

def storeDiffData : Store := { runners := [runnerW], secrets := [secretDiffData] }

theorem C4_witness :
    hasSecretUpdate (Reconcile cfgW envW reqW storeDiffData).2.2 = true :=
  (@C4_secret_update_iff cfgW envW reqW storeDiffData runnerW secretDiffData expW
    (by decide) (by decide) (by decide) (by decide)).2 (by decide)
